import Mathlib

/-!
The local-map window (`src/pgslam/LocalMap.hpp`) and the registration worker
(`Localizer.hpp`) of pgslam.

A shallow embedding of `pgslam::LocalMap<T>`, of the containers it is built on
and of the main loop of `pgslam::Localizer<T>`, followed by the properties that
the specification states.

* `boost::circular_buffer` is embedded as its abstract value: a capacity and
  the stored elements from front to back.
* Eigen matrices, libpointmatcher clouds and their operators are external
  collaborators; the window is embedded over an arbitrary `Geometry`.
* Operations whose C++ body dereferences an element of an empty buffer
  (`back()`, `*rbegin()`, `*begin()`) return `none` on that input.
* The worker is embedded as one pass of its loop over an explicit state, run
  for a bounded number of passes, with no other thread acting meanwhile; the
  filter chain, the engine and the map manager are arbitrary `Collaborators`.
-/

namespace pgslam

/-! ## Containers -/

/-- Abstract value of a `boost::circular_buffer<α>`: the capacity it was given
and the stored elements, front first. -/
structure circular_buffer (α : Type) where
  capacity : Nat
  elems : List α
deriving DecidableEq, Repr

namespace circular_buffer

variable {α : Type}

/-- The default constructor `circular_buffer()`: capacity zero, no element. -/
def create : circular_buffer α := ⟨0, []⟩

/-- The constructor `circular_buffer(capacity)`: empty, with that capacity. -/
def withCapacity (capacity : Nat) : circular_buffer α := ⟨capacity, []⟩

/-- Member `size()`. -/
def size (b : circular_buffer α) : Nat := b.elems.length

/-- Member `empty()`. -/
def empty (b : circular_buffer α) : Bool := b.elems.isEmpty

/-- Member `full()`: `capacity() == size()`. -/
def full (b : circular_buffer α) : Bool := b.capacity == b.size

/-- Member `push_back(item)`: when the buffer is full the front element is
overwritten (nothing happens for capacity zero), otherwise the item is added at
the back. -/
def push_back (b : circular_buffer α) (item : α) : circular_buffer α :=
  if b.full then
    if b.empty then b else { b with elems := b.elems.tail ++ [item] }
  else { b with elems := b.elems ++ [item] }

/-- Member `set_capacity(new_capacity)`: keeps the first
`min(new_capacity, size())` elements. -/
def set_capacity (b : circular_buffer α) (new_capacity : Nat) : circular_buffer α :=
  if new_capacity = b.capacity then b
  else ⟨new_capacity, b.elems.take (min new_capacity b.size)⟩

/-- Member `clear()`: removes every element, the capacity stays. -/
def clear (b : circular_buffer α) : circular_buffer α := { b with elems := [] }

/-- Member `back()`: the last element; undefined on an empty buffer. -/
def back (b : circular_buffer α) : Option α := b.elems.getLast?

/-- The range-for loop `for (auto v : src) dst.push_back(f v)`. -/
def push_back_all {β : Type} (dst : circular_buffer β) (f : α → β) (src : List α) :
    circular_buffer β :=
  src.foldl (fun acc v => acc.push_back (f v)) dst

end circular_buffer

/-! ## Data model -/

/-- Modelled from the spec: `Vertex` is declared in `types.h`, which is not part
of the sources; the spec calls it an opaque identifier of a keyframe node. -/
abbrev Vertex := Nat

/-- Modelled from the spec: `Keyframe` is declared in `types.h`; the window
reads its cloud (through `cloud_ptr`), its optimized world pose and its
last-update timestamp. -/
structure Keyframe (Mx DP : Type) where
  cloud_ptr : DP
  optimized_T_world_kf : Mx
  update_time : Nat

/-- Modelled from the spec: the pose graph, read through `g[v]` only. -/
abbrev Graph (Mx DP : Type) := Vertex → Keyframe Mx DP

/-- Modelled from the spec: `LocalMap<T>::Composition` (declared in
`LocalMap.h`), an ordered capacity-bounded sequence of vertices. -/
abbrev Composition := circular_buffer Vertex

/-- Member type `LocalMap<T>::DataElement`: a vertex with its captured keyframe. -/
abbrev DataElement (Mx DP : Type) := Vertex × Keyframe Mx DP

/-- Member type `LocalMap<T>::DataBuffer`. -/
abbrev DataBuffer (Mx DP : Type) := circular_buffer (DataElement Mx DP)

/-- Modelled from the spec: the external operators used by the merge, namely
Eigen's `inverse()` and `operator*` on poses, the libpointmatcher rigid
transformation `compute(cloud, pose)`, `DataPoints::concatenate`, the number of
columns of `features` and the default (empty) cloud. -/
structure Geometry (Mx DP : Type) where
  inverse : Mx → Mx
  mul : Mx → Mx → Mx
  compute : DP → Mx → DP
  concatenate : DP → DP → DP
  cols : DP → Nat
  emptyCloud : DP

/-- The state of a `LocalMap<T>`: the buffer `data_` and the merged `cloud_`. -/
structure LocalMap (Mx DP : Type) where
  data_ : DataBuffer Mx DP
  cloud_ : DP

variable {Mx DP : Type}

/-- Constructor `DataBuffer(const Graph &, const Composition &)`. -/
def DataBuffer.ofGraph (g : Graph Mx DP) (comp : Composition) : DataBuffer Mx DP :=
  ((circular_buffer.create).set_capacity comp.capacity).push_back_all (fun v => (v, g v)) comp.elems

namespace LocalMap

/-- Method `BuildCloudFromData`, as a function of `data_` giving the new
`cloud_`: reverse iteration from the reference keyframe at the back. -/
def buildCloud (G : Geometry Mx DP) (data_ : DataBuffer Mx DP) : Option DP :=
  match data_.elems.reverse with
  | [] => none
  | ref :: others =>
    let T_refkf_world := G.inverse ref.2.optimized_T_world_kf
    some (others.foldl
      (fun cloud e =>
        G.concatenate cloud
          (G.compute e.2.cloud_ptr (G.mul T_refkf_world e.2.optimized_T_world_kf)))
      ref.2.cloud_ptr)

/-- Method `BuildCloudFromData` on the window. -/
def BuildCloudFromData (G : Geometry Mx DP) (w : LocalMap Mx DP) :
    Option (LocalMap Mx DP) :=
  (buildCloud G w.data_).map (fun c => { w with cloud_ := c })

/-- Constructor `LocalMap(size_t capacity)`. -/
def ofCapacity (G : Geometry Mx DP) (capacity : Nat) : LocalMap Mx DP :=
  ⟨circular_buffer.withCapacity capacity, G.emptyCloud⟩

/-- Constructor `LocalMap(const Graph &, const Composition &)`. -/
def ofGraph (G : Geometry Mx DP) (g : Graph Mx DP) (comp : Composition) :
    Option (LocalMap Mx DP) :=
  BuildCloudFromData G ⟨DataBuffer.ofGraph g comp, G.emptyCloud⟩

/-- Method `Capacity`. -/
def Capacity (w : LocalMap Mx DP) : Nat := w.data_.capacity

/-- Method `GetComposition`. -/
def GetComposition (w : LocalMap Mx DP) : Composition :=
  (circular_buffer.withCapacity w.data_.capacity).push_back_all (fun e => e.1) w.data_.elems

/-- Method `UpdateFromGraph`: every element keeps its vertex and takes the
graph's keyframe for it, then the cloud is rebuilt. -/
def UpdateFromGraph (G : Geometry Mx DP) (w : LocalMap Mx DP) (g : Graph Mx DP) :
    Option (LocalMap Mx DP) :=
  BuildCloudFromData G
    { w with data_ := { w.data_ with elems := w.data_.elems.map (fun e => (e.1, g e.1)) } }

/-- Method `UpdateFromDataBuffer`: `data_ = data`, then the cloud is rebuilt. -/
def UpdateFromDataBuffer (G : Geometry Mx DP) (w : LocalMap Mx DP)
    (data : DataBuffer Mx DP) : Option (LocalMap Mx DP) :=
  BuildCloudFromData G { w with data_ := data }

/-- Method `UpdateToNewComposition`: clear, set the capacity to the
composition's capacity, push every vertex with its keyframe, rebuild. -/
def UpdateToNewComposition (G : Geometry Mx DP) (w : LocalMap Mx DP)
    (g : Graph Mx DP) (comp : Composition) : Option (LocalMap Mx DP) :=
  BuildCloudFromData G
    { w with
      data_ := ((w.data_.clear).set_capacity comp.capacity).push_back_all
        (fun v => (v, g v)) comp.elems }

/-- Method `HasCloud`. -/
def HasCloud (G : Geometry Mx DP) (w : LocalMap Mx DP) : Bool :=
  G.cols w.cloud_ != 0

/-- Method `Cloud`. -/
def Cloud (w : LocalMap Mx DP) : DP := w.cloud_

/-- Method `ReferenceVertex`. -/
def ReferenceVertex (w : LocalMap Mx DP) : Option Vertex :=
  w.data_.back.map (fun e => e.1)

/-- Method `ReferenceKeyframe`. -/
def ReferenceKeyframe (w : LocalMap Mx DP) : Option (Keyframe Mx DP) :=
  w.data_.back.map (fun e => e.2)

/-- Method `CloudInWorldFrame`. -/
def CloudInWorldFrame (G : Geometry Mx DP) (w : LocalMap Mx DP) : Option DP :=
  (ReferenceKeyframe w).map (fun kf => G.compute w.cloud_ kf.optimized_T_world_kf)

/-- Method `HasSameVertexSet`: sizes first, then each vertex of the window is
searched in the composition and each vertex of the composition in the window. -/
def HasSameVertexSet (w : LocalMap Mx DP) (comp : Composition) : Bool :=
  if w.data_.size != comp.size then false
  else if !(w.data_.elems.all
      (fun elem => (comp.elems.find? (fun v => decide (elem.1 = v))).isSome)) then false
  else if !(comp.elems.all
      (fun v => (w.data_.elems.find? (fun elem => decide (elem.1 = v))).isSome)) then false
  else true

/-- Method `HasSameReferenceVertex`: compares the two `back()` elements. -/
def HasSameReferenceVertex (w : LocalMap Mx DP) (comp : Composition) : Option Bool :=
  match w.data_.back, comp.back with
  | some e, some v => some (decide (e.1 = v))
  | _, _ => none

/-- Method `HasSameComposition`: `HasSameReferenceVertex(comp) and
HasSameVertexSet(comp)`, the second operand evaluated only after the first. -/
def HasSameComposition (w : LocalMap Mx DP) (comp : Composition) : Option Bool :=
  (HasSameReferenceVertex w comp).map (fun r => r && HasSameVertexSet w comp)

/-- Method `IsOutdated`. -/
def IsOutdated (w : LocalMap Mx DP) (g : Graph Mx DP) : Bool :=
  w.data_.elems.any (fun element => decide ((g element.1).update_time > element.2.update_time))

/-- Method `IsReferenceKeyframeOutdated`. -/
def IsReferenceKeyframeOutdated (w : LocalMap Mx DP) (g : Graph Mx DP) : Option Bool :=
  w.data_.back.map (fun e => decide ((g e.1).update_time > e.2.update_time))

/-- Method `FindClosestVertex`; `Distance` is `Metrics<T>::Distance` of
`metrics.h`, taken as a parameter with values in a linear order. -/
def FindClosestVertex {S : Type} [LinearOrder S] (Distance : Mx → Mx → S)
    (w : LocalMap Mx DP) (T_world_x : Mx) : Option Vertex :=
  match w.data_.elems with
  | [] => none
  | first :: rest =>
    some (rest.foldl
      (fun (closest : Vertex × S) e =>
        let dist := Distance e.2.optimized_T_world_kf T_world_x
        if dist < closest.2 then (e.1, dist) else closest)
      (first.1, Distance first.2.optimized_T_world_kf T_world_x)).1

end LocalMap

/-! ## An exact instance of the external operators -/

/-- Modelled from the spec: a world pose as a 4×4 homogeneous matrix, with exact
rational entries in place of the scalar `T`. -/
abbrev Pose := Matrix (Fin 4) (Fin 4) ℚ

/-- Modelled from the spec: a point cloud as the list of the columns of its
`features` matrix, each a homogeneous point. -/
abbrev PointCloud := List (Fin 4 → ℚ)

/-- Modelled from the spec: the matrix inverse, the matrix product, the rigid
transformation applying the pose to every point, and concatenation appending
the points of the second cloud after those of the first. -/
def exactGeometry : Geometry Pose PointCloud where
  inverse A := A.det⁻¹ • A.adjugate
  mul A B := A * B
  compute cloud A := cloud.map (fun p => A.mulVec p)
  concatenate a b := a ++ b
  cols cloud := cloud.length
  emptyCloud := []

/-- The pose that translates by `(x, y, z)`. -/
def translation (x y z : ℚ) : Pose := !![1, 0, 0, x; 0, 1, 0, y; 0, 0, 1, z; 0, 0, 0, 1]

/-- The homogeneous point `(x, y, z, 1)`. -/
def point (x y z : ℚ) : Fin 4 → ℚ := ![x, y, z, 1]

/-! ## Sample data -/

/-- A graph whose keyframe `v` holds one point, sits at `(v, 0, 0)` and was
updated at time `v`. -/
def sampleGraph : Graph Pose PointCloud :=
  fun v => ⟨[point v 0 0], translation v 0 0, v⟩

/-- The same graph after every keyframe has been updated once more. -/
def laterGraph : Graph Pose PointCloud :=
  fun v => ⟨[point v 0 0], translation v 0 0, v + 1⟩

/-- A window of capacity three holding the vertices 7 and 4, captured from
`sampleGraph`; vertex 4 is the reference. -/
def sampleWindow : LocalMap Pose PointCloud :=
  ⟨⟨3, [(7, sampleGraph 7), (4, sampleGraph 4)]⟩, []⟩

/-- A full window of capacity three holding the vertices 1, 2 and 3, captured
from `sampleGraph`; vertex 3 is the reference. -/
def fullWindow : LocalMap Pose PointCloud :=
  ⟨⟨3, [(1, sampleGraph 1), (2, sampleGraph 2), (3, sampleGraph 3)]⟩, []⟩

/-- The graph of the two-keyframe scenario: keyframe 0 is `A`, one point at the
origin, identity world pose; every other vertex is `B`, one point at
`(5, 0, 0)`, world pose the translation by `(1, 0, 0)`. -/
def scenarioGraph : Graph Pose PointCloud :=
  fun v => if v = 0 then ⟨[point 0 0 0], 1, 0⟩ else ⟨[point 5 0 0], translation 1 0 0, 0⟩

/-- A sample metric for `FindClosestVertex`: the squared Euclidean distance
between the translation parts of two poses. -/
def sampleDistance (A B : Pose) : ℚ :=
  (A 0 3 - B 0 3) ^ 2 + (A 1 3 - B 1 3) ^ 2 + (A 2 3 - B 2 3) ^ 2

/-! ## The merge as the specification words it -/

/-- The merge in the window's own iteration order, as the specification words
it: the reference cloud first, then every other member from the front of the
window to the member before the reference, each transformed by
`inverse(reference pose) × member pose`. -/
def mergeInWindowOrder {Mx DP : Type} (G : Geometry Mx DP) (data_ : DataBuffer Mx DP) :
    Option DP :=
  data_.back.map (fun ref =>
    data_.elems.dropLast.foldl
      (fun cloud e =>
        G.concatenate cloud
          (G.compute e.2.cloud_ptr
            (G.mul (G.inverse ref.2.optimized_T_world_kf) e.2.optimized_T_world_kf)))
      ref.2.cloud_ptr)

/-! ## The registration pipeline (`Localizer.hpp`) -/

/-- Modelled from the spec: the collaborators of the worker, whose code is not
part of the sources. These are the filter chain (`input_filters_.apply`), the
rigid transformation exposed by the map manager, the registration engine
`icp_sequence_` (`hasMap`, `setMap`, `operator()`, `errorMinimizer->getOverlap`)
over its own state `Icp`, and the map manager over its own state `MM`.
The registration gives `none` when the engine raises an error. -/
structure Collaborators (Mx DP S Icp MM : Type) where
  apply : DP → DP
  compute : DP → Mx → DP
  hasMap : Icp → Bool
  setMap : Icp → DP → Icp
  register : Icp → DP → Mx → Option (Icp × Mx)
  getOverlap : Icp → S
  AddFirstKeyframe : MM → DP → Mx → MM
  GetUpdatedLocalMap : MM → MM × DP
  LocalMapNeedsUpdate : MM → MM × Bool
  AddKeyframeBasedOnOverlap : MM → S → DP → Mx → MM

/-- An entry of the queue `new_data_buffer_`: the tuple
`(cloud_ptr, T_world_robot, T_robot_sensor)`. -/
abbrev InputTuple (Mx DP : Type) := DP × Mx × Mx

/-- What the worker does, in order: taking an observation from the front of the
queue, and each call to a collaborator with its arguments (and its boolean
answer, for the two queries). -/
inductive Call (Mx DP S : Type) where
  | front (data : InputTuple Mx DP)
  | apply (cloud : DP)
  | compute (cloud : DP) (T_robot_sensor : Mx)
  | hasMap (answer : Bool)
  | AddFirstKeyframe (cloud : DP) (T_world_robot : Mx)
  | GetUpdatedLocalMap
  | setMap (map : DP)
  | LocalMapNeedsUpdate (answer : Bool)
  | register (cloud : DP) (T_world_robot : Mx)
  | getOverlap (overlap : S)
  | AddKeyframeBasedOnOverlap (overlap : S) (cloud : DP) (corrected_T_world_robot : Mx)
deriving DecidableEq, Repr

/-- The state of a `Localizer<T>` and of its worker: the members `stop_`,
`new_data_buffer_`, `icp_sequence_` and the map manager behind
`map_manager_ptr_`, the local `unsigned int count` of `Main` (32 bits, wrapping),
and the record of what the worker has done so far. -/
structure Localizer (Mx DP S Icp MM : Type) where
  stop_ : Bool
  new_data_buffer_ : List (InputTuple Mx DP)
  icp_sequence_ : Icp
  map_manager_ptr_ : MM
  count : Nat
  calls : List (Call Mx DP S)

/-- How one pass through the body of the main loop ends: the loop goes on to
its next pass, the worker is blocked in `wait` on an empty queue, the loop is
left because `stop_` is set, or an error raised by the engine leaves `Main`. -/
inductive Outcome (σ : Type) where
  | next (s : σ)
  | waiting (s : σ)
  | stopped (s : σ)
  | raised (s : σ)
deriving DecidableEq, Repr

/-- The state an outcome carries. -/
def Outcome.state {σ : Type} : Outcome σ → σ
  | .next s => s
  | .waiting s => s
  | .stopped s => s
  | .raised s => s

namespace Localizer

variable {S Icp MM : Type}

/-- Constructor `Localizer(MapManagerPtr)`: `stop_` is false, the queue is
empty, the engine is in its default state `icp` and nothing has been done. -/
def create (icp : Icp) (mm : MM) : Localizer Mx DP S Icp MM :=
  ⟨false, [], icp, mm, 0, []⟩

/-- Method `AddNewData`: the tuple is pushed at the back of the queue. -/
def AddNewData (s : Localizer Mx DP S Icp MM) (data : InputTuple Mx DP) :
    Localizer Mx DP S Icp MM :=
  { s with new_data_buffer_ := s.new_data_buffer_ ++ [data] }

/-- One pass through `while(not stop_) { ... }` of `Main`, with no other
thread touching the queue or `stop_` during the pass. -/
def MainIteration (C : Collaborators Mx DP S Icp MM) (s : Localizer Mx DP S Icp MM) :
    Outcome (Localizer Mx DP S Icp MM) :=
  if s.stop_ then .stopped s
  else
    match s.new_data_buffer_ with
    | [] => .waiting s
    | (cloud_ptr, T_world_robot, T_robot_sensor) :: rest =>
      if s.stop_ then .stopped s
      else
        let filtered := C.apply cloud_ptr
        let cloud := C.compute filtered T_robot_sensor
        let s1 : Localizer Mx DP S Icp MM :=
          { s with
            new_data_buffer_ := rest
            count := (s.count + 1) % 4294967296
            calls := s.calls ++ [.front (cloud_ptr, T_world_robot, T_robot_sensor),
              .apply cloud_ptr, .compute filtered T_robot_sensor,
              .hasMap (C.hasMap s.icp_sequence_)] }
        if !(C.hasMap s1.icp_sequence_) then
          let mm1 := C.AddFirstKeyframe s1.map_manager_ptr_ cloud T_world_robot
          let updated := C.GetUpdatedLocalMap mm1
          .next { s1 with
            map_manager_ptr_ := updated.1
            icp_sequence_ := C.setMap s1.icp_sequence_ updated.2
            calls := s1.calls ++ [.AddFirstKeyframe cloud T_world_robot, .GetUpdatedLocalMap,
              .setMap updated.2] }
        else
          let needs := C.LocalMapNeedsUpdate s1.map_manager_ptr_
          let s2 : Localizer Mx DP S Icp MM :=
            if needs.2 then
              let updated := C.GetUpdatedLocalMap needs.1
              { s1 with
                map_manager_ptr_ := updated.1
                icp_sequence_ := C.setMap s1.icp_sequence_ updated.2
                calls := s1.calls ++ [.LocalMapNeedsUpdate true, .GetUpdatedLocalMap,
                  .setMap updated.2] }
            else
              { s1 with
                map_manager_ptr_ := needs.1
                calls := s1.calls ++ [.LocalMapNeedsUpdate false] }
          match C.register s2.icp_sequence_ cloud T_world_robot with
          | none => .raised { s2 with calls := s2.calls ++ [.register cloud T_world_robot] }
          | some (icp, corrected_T_world_robot) =>
            let overlap := C.getOverlap icp
            .next { s2 with
              icp_sequence_ := icp
              map_manager_ptr_ :=
                C.AddKeyframeBasedOnOverlap s2.map_manager_ptr_ overlap cloud corrected_T_world_robot
              calls := s2.calls ++ [.register cloud T_world_robot, .getOverlap overlap,
                .AddKeyframeBasedOnOverlap overlap cloud corrected_T_world_robot] }

/-- The main loop run for at most `fuel` passes; with the fuel used up the
loop is still going (`next`). -/
def MainLoop (C : Collaborators Mx DP S Icp MM) :
    Nat → Localizer Mx DP S Icp MM → Outcome (Localizer Mx DP S Icp MM)
  | 0, s => .next s
  | fuel + 1, s =>
    match MainIteration C s with
    | .next s1 => MainLoop C fuel s1
    | o => o

/-- Method `Main`: `count = 0`, then the main loop. -/
def Main (C : Collaborators Mx DP S Icp MM) (fuel : Nat) (s : Localizer Mx DP S Icp MM) :
    Outcome (Localizer Mx DP S Icp MM) :=
  MainLoop C fuel { s with count := 0 }

/-- Method `Run`: `stop_ = false`, then `Main` on the worker thread. -/
def Run (C : Collaborators Mx DP S Icp MM) (fuel : Nat) (s : Localizer Mx DP S Icp MM) :
    Outcome (Localizer Mx DP S Icp MM) :=
  Main C fuel { s with stop_ := false }

/-- The observations the worker has taken from the queue, in the order in
which it took them. -/
def processed (calls : List (Call Mx DP S)) : List (InputTuple Mx DP) :=
  calls.filterMap (fun c => match c with
    | .front data => some data
    | _ => none)

/-- The clouds the worker has handed on for localization, each with its world
pose: to the map manager as first keyframe, or to the engine for
registration. -/
def handled (calls : List (Call Mx DP S)) : List (DP × Mx) :=
  calls.filterMap (fun c => match c with
    | .AddFirstKeyframe cloud T_world_robot => some (cloud, T_world_robot)
    | .register cloud T_world_robot => some (cloud, T_world_robot)
    | _ => none)

/-- The clouds the worker has reported to the map manager, through
`AddFirstKeyframe` or `AddKeyframeBasedOnOverlap`. -/
def reported (calls : List (Call Mx DP S)) : List DP :=
  calls.filterMap (fun c => match c with
    | .AddFirstKeyframe cloud _ => some cloud
    | .AddKeyframeBasedOnOverlap _ cloud _ => some cloud
    | _ => none)

/-- The cloud of an observation as the worker passes it on: filtered, then
transformed by the robot-to-sensor pose. -/
def robotCloud (C : Collaborators Mx DP S Icp MM) (data : InputTuple Mx DP) : DP :=
  C.compute (C.apply data.1) data.2.2

/-- The engine as the registration of a pass finds it: with the map set from
`GetUpdatedLocalMap()` when `LocalMapNeedsUpdate()` answers true, untouched
otherwise. -/
def engineAtRegistration (C : Collaborators Mx DP S Icp MM) (s : Localizer Mx DP S Icp MM) :
    Icp :=
  if (C.LocalMapNeedsUpdate s.map_manager_ptr_).2 then
    C.setMap s.icp_sequence_ (C.GetUpdatedLocalMap (C.LocalMapNeedsUpdate s.map_manager_ptr_).1).2
  else s.icp_sequence_

/-- The map manager as the registration of a pass finds it: after
`LocalMapNeedsUpdate()` and, when it answers true, `GetUpdatedLocalMap()`. -/
def managerAtRegistration (C : Collaborators Mx DP S Icp MM) (s : Localizer Mx DP S Icp MM) :
    MM :=
  if (C.LocalMapNeedsUpdate s.map_manager_ptr_).2 then
    (C.GetUpdatedLocalMap (C.LocalMapNeedsUpdate s.map_manager_ptr_).1).1
  else (C.LocalMapNeedsUpdate s.map_manager_ptr_).1

/-- The calls of a pass between `hasMap()` and the registration: the query
`LocalMapNeedsUpdate()` and, when it answers true, the refresh of the map. -/
def refreshCalls (C : Collaborators Mx DP S Icp MM) (s : Localizer Mx DP S Icp MM) :
    List (Call Mx DP S) :=
  if (C.LocalMapNeedsUpdate s.map_manager_ptr_).2 then
    [.LocalMapNeedsUpdate true, .GetUpdatedLocalMap,
     .setMap (C.GetUpdatedLocalMap (C.LocalMapNeedsUpdate s.map_manager_ptr_).1).2]
  else [.LocalMapNeedsUpdate false]

end Localizer

/-! ## Reachable windows, re-anchoring and the world-frame merge -/

/-- The windows that the constructors and the three update methods can
produce, when every composition and buffer handed in is within its own
capacity and has pairwise distinct vertices. -/
inductive Reachable {Mx DP : Type} (G : Geometry Mx DP) : LocalMap Mx DP → Prop where
  | ofCapacity (capacity : Nat) : Reachable G (LocalMap.ofCapacity G capacity)
  | ofGraph (g : Graph Mx DP) (comp : Composition) (w : LocalMap Mx DP) :
      comp.size ≤ comp.capacity → comp.elems.Nodup →
      LocalMap.ofGraph G g comp = some w → Reachable G w
  | UpdateFromGraph (w : LocalMap Mx DP) (g : Graph Mx DP) (w1 : LocalMap Mx DP) :
      Reachable G w → LocalMap.UpdateFromGraph G w g = some w1 → Reachable G w1
  | UpdateFromDataBuffer (w : LocalMap Mx DP) (data : DataBuffer Mx DP)
      (w1 : LocalMap Mx DP) :
      Reachable G w → data.size ≤ data.capacity → (data.elems.map (fun e => e.1)).Nodup →
      LocalMap.UpdateFromDataBuffer G w data = some w1 → Reachable G w1
  | UpdateToNewComposition (w : LocalMap Mx DP) (g : Graph Mx DP) (comp : Composition)
      (w1 : LocalMap Mx DP) :
      Reachable G w → comp.size ≤ comp.capacity → comp.elems.Nodup →
      LocalMap.UpdateToNewComposition G w g comp = some w1 → Reachable G w1

/-- The window re-anchored by `T`: the world pose `P` of every member is
replaced by `T × P`; vertices, clouds and timestamps stay. -/
def reanchor {Mx DP : Type} (G : Geometry Mx DP) (T : Mx) (w : LocalMap Mx DP) :
    LocalMap Mx DP :=
  { w with
    data_ := { w.data_ with
      elems := w.data_.elems.map (fun e =>
        (e.1, { e.2 with optimized_T_world_kf := G.mul T e.2.optimized_T_world_kf })) } }

/-- Modelled from the spec: a rigid transform is a homogeneous matrix whose
last row is `(0, 0, 0, 1)` and whose upper-left 3×3 block is a rotation
(orthogonal, of determinant one). -/
def IsRigid (A : Pose) : Prop :=
  (A 3 0 = 0 ∧ A 3 1 = 0 ∧ A 3 2 = 0 ∧ A 3 3 = 1) ∧
  (A.submatrix Fin.castSucc Fin.castSucc).transpose * A.submatrix Fin.castSucc Fin.castSucc
    = (1 : Matrix (Fin 3) (Fin 3) ℚ) ∧
  (A.submatrix Fin.castSucc Fin.castSucc).det = 1

/-- The window in the world frame, member by member: the cloud of the
reference keyframe transformed by its own world pose, then the clouds of the
other members, in the order used by the merge, each transformed by its own
world pose. -/
def mergeInWorldFrame {Mx DP : Type} (G : Geometry Mx DP) (data_ : DataBuffer Mx DP) :
    Option DP :=
  match data_.elems.reverse with
  | [] => none
  | ref :: others =>
    some (others.foldl
      (fun cloud e => G.concatenate cloud (G.compute e.2.cloud_ptr e.2.optimized_T_world_kf))
      (G.compute ref.2.cloud_ptr ref.2.optimized_T_world_kf))

/-! ## Sample collaborators -/

/-- Collaborators over clouds that are bare sequence markers: the filter and
the transformation keep the marker, the engine has a map once one is set, and
it raises an error exactly on the clouds that `failing` selects. -/
def sampleCollaborators (failing : Nat → Bool) : Collaborators Nat Nat Nat Bool (List Nat) where
  apply cloud := cloud
  compute cloud _ := cloud
  hasMap icp := icp
  setMap _ _ := true
  register icp cloud T := if failing cloud then none else some (icp, T)
  getOverlap _ := 1
  AddFirstKeyframe mm cloud _ := mm ++ [cloud]
  GetUpdatedLocalMap mm := (mm, mm.length)
  LocalMapNeedsUpdate mm := (mm, false)
  AddKeyframeBasedOnOverlap mm _ cloud _ := mm ++ [cloud]

/-- A localizer just constructed: nothing queued, no map in the engine. -/
def freshLocalizer : Localizer Nat Nat Nat Bool (List Nat) :=
  ⟨false, [], false, [], 0, []⟩

/-- A localizer whose engine already has a map, with nothing queued. -/
def trackingLocalizer : Localizer Nat Nat Nat Bool (List Nat) :=
  ⟨false, [], true, [9], 0, []⟩

/-! ## Lemmas on the containers -/

namespace circular_buffer

variable {α β : Type}

lemma set_capacity_nil (c n : Nat) :
    (⟨c, []⟩ : circular_buffer α).set_capacity n = ⟨n, []⟩ := by
  unfold set_capacity
  split
  · next h => simp [h]
  · simp

lemma push_back_of_lt (b : circular_buffer α) (x : α) (h : b.size < b.capacity) :
    b.push_back x = ⟨b.capacity, b.elems ++ [x]⟩ := by
  have hne : (b.capacity == b.size) = false := by
    simp only [beq_eq_false_iff_ne, ne_eq]; omega
  simp [push_back, full, hne]

/-- Pushing a list into a buffer with enough room appends it, in order. -/
lemma push_back_all_of_room (f : α → β) (src : List α) :
    ∀ dst : circular_buffer β, dst.size + src.length ≤ dst.capacity →
      dst.push_back_all f src = ⟨dst.capacity, dst.elems ++ src.map f⟩ := by
  induction src with
  | nil => intro dst _; simp [push_back_all]
  | cons v vs ih =>
    intro dst h
    simp only [List.length_cons] at h
    have hlt : dst.size < dst.capacity := by omega
    have hstep : dst.push_back_all f (v :: vs) = (dst.push_back (f v)).push_back_all f vs := rfl
    rw [hstep, push_back_of_lt dst (f v) hlt, ih]
    · simp
    · simp only [size, List.length_append, List.length_singleton] at *
      omega

end circular_buffer

/-! ## Lemmas on the window -/

section window

variable {Mx DP : Type}

lemma DataBuffer.ofGraph_value (g : Graph Mx DP) (comp : Composition)
    (hk : comp.size ≤ comp.capacity) :
    DataBuffer.ofGraph g comp = ⟨comp.capacity, comp.elems.map (fun v => (v, g v))⟩ := by
  unfold DataBuffer.ofGraph circular_buffer.create
  rw [circular_buffer.set_capacity_nil, circular_buffer.push_back_all_of_room]
  · simp
  · simpa [circular_buffer.size] using hk

lemma LocalMap.GetComposition_eq (w : LocalMap Mx DP) (h : w.data_.size ≤ w.data_.capacity) :
    w.GetComposition = ⟨w.data_.capacity, w.data_.elems.map (fun e => e.1)⟩ := by
  unfold LocalMap.GetComposition circular_buffer.withCapacity
  rw [circular_buffer.push_back_all_of_room]
  · simp
  · simpa [circular_buffer.size] using h

lemma LocalMap.buildCloud_isSome (G : Geometry Mx DP) (data_ : DataBuffer Mx DP)
    (h : data_.elems ≠ []) : ∃ c, LocalMap.buildCloud G data_ = some c := by
  unfold LocalMap.buildCloud
  cases hr : data_.elems.reverse with
  | nil => exact absurd (List.reverse_eq_nil_iff.mp hr) h
  | cons r rest => exact ⟨_, rfl⟩

lemma LocalMap.BuildCloudFromData_data (G : Geometry Mx DP) (w w1 : LocalMap Mx DP)
    (h : LocalMap.BuildCloudFromData G w = some w1) : w1.data_ = w.data_ := by
  unfold LocalMap.BuildCloudFromData at h
  cases hc : LocalMap.buildCloud G w.data_ with
  | none => simp [hc] at h
  | some c =>
    simp only [hc, Option.map_some', Option.some.injEq] at h
    rw [← h]

lemma LocalMap.BuildCloudFromData_isSome (G : Geometry Mx DP) (w : LocalMap Mx DP)
    (h : w.data_.elems ≠ []) : ∃ w1, LocalMap.BuildCloudFromData G w = some w1 := by
  obtain ⟨c, hc⟩ := LocalMap.buildCloud_isSome G w.data_ h
  exact ⟨{ w with cloud_ := c }, by simp [LocalMap.BuildCloudFromData, hc]⟩

lemma LocalMap.ofGraph_data (G : Geometry Mx DP) (g : Graph Mx DP) (comp : Composition)
    (w : LocalMap Mx DP) (h : LocalMap.ofGraph G g comp = some w) :
    w.data_ = DataBuffer.ofGraph g comp :=
  LocalMap.BuildCloudFromData_data G _ w h

lemma circular_buffer.back_eq_getLast {α : Type} (b : circular_buffer α) (h : b.elems ≠ []) :
    b.back = some (b.elems.getLast h) := by
  simp [circular_buffer.back, List.getLast?_eq_getLast, h]

lemma LocalMap.reverse_eq_getLast_cons {α : Type} (l : List α) (h : l ≠ []) :
    l.reverse = l.getLast h :: l.dropLast.reverse := by
  conv_lhs => rw [← List.dropLast_append_getLast h]
  simp

/-- The rebuild on a non-empty window: the data is kept and the cloud is the
left fold of the merge step over the members before the reference, last one
first, starting from the reference cloud. -/
lemma LocalMap.BuildCloudFromData_eq (G : Geometry Mx DP) (w : LocalMap Mx DP)
    (h : w.data_.elems ≠ []) :
    LocalMap.BuildCloudFromData G w = some
      { data_ := w.data_
        cloud_ := w.data_.elems.dropLast.reverse.foldl
          (fun cloud e =>
            G.concatenate cloud
              (G.compute e.2.cloud_ptr
                (G.mul (G.inverse (w.data_.elems.getLast h).2.optimized_T_world_kf)
                  e.2.optimized_T_world_kf)))
          (w.data_.elems.getLast h).2.cloud_ptr } := by
  simp only [LocalMap.BuildCloudFromData, LocalMap.buildCloud,
    LocalMap.reverse_eq_getLast_cons _ h, Option.map_some']

lemma LocalMap.ofGraph_eq (G : Geometry Mx DP) (g : Graph Mx DP) (comp : Composition)
    (hk : comp.size ≤ comp.capacity) :
    LocalMap.ofGraph G g comp = LocalMap.BuildCloudFromData G
      ⟨⟨comp.capacity, comp.elems.map (fun v => (v, g v))⟩, G.emptyCloud⟩ := by
  rw [LocalMap.ofGraph, DataBuffer.ofGraph_value g comp hk]

/-- The point count of a merge: with a count-preserving transformation and an
additive concatenation, the fold adds the counts of the merged members. -/
lemma LocalMap.cols_foldl_merge (G : Geometry Mx DP)
    (hT : ∀ c A, G.cols (G.compute c A) = G.cols c)
    (hC : ∀ a b, G.cols (G.concatenate a b) = G.cols a + G.cols b)
    (T_refkf_world : Mx) (others : List (DataElement Mx DP)) :
    ∀ init : DP,
      G.cols (others.foldl
        (fun cloud e =>
          G.concatenate cloud
            (G.compute e.2.cloud_ptr (G.mul T_refkf_world e.2.optimized_T_world_kf)))
        init) = G.cols init + (others.map (fun e => G.cols e.2.cloud_ptr)).sum := by
  induction others with
  | nil => intro init; simp
  | cons e es ih =>
    intro init
    simp only [List.foldl_cons, List.map_cons, List.sum_cons]
    rw [ih, hC, hT]
    omega

/-- The scan of `FindClosestVertex` keeps a member seen so far together with its
distance, which is minimal among the members seen so far. -/
lemma LocalMap.closest_foldl {S : Type} [LinearOrder S] (D : DataElement Mx DP → S)
    (rest : List (DataElement Mx DP)) :
    ∀ (seen : List (DataElement Mx DP)) (acc : Vertex × S),
      (∃ e ∈ seen, e.1 = acc.1 ∧ D e = acc.2) → (∀ e ∈ seen, acc.2 ≤ D e) →
      (∃ e ∈ seen ++ rest,
          e.1 = (rest.foldl (fun (closest : Vertex × S) e =>
            if D e < closest.2 then (e.1, D e) else closest) acc).1 ∧
          D e = (rest.foldl (fun (closest : Vertex × S) e =>
            if D e < closest.2 then (e.1, D e) else closest) acc).2) ∧
      (∀ e ∈ seen ++ rest,
          (rest.foldl (fun (closest : Vertex × S) e =>
            if D e < closest.2 then (e.1, D e) else closest) acc).2 ≤ D e) := by
  induction rest with
  | nil =>
    intro seen acc h1 h2
    simp only [List.append_nil, List.foldl_nil]
    exact ⟨h1, h2⟩
  | cons x xs ih =>
    intro seen acc h1 h2
    have hstep := ih (seen ++ [x]) (if D x < acc.2 then (x.1, D x) else acc) ?_ ?_
    · simp only [List.append_assoc, List.singleton_append] at hstep
      simpa only [List.foldl_cons] using hstep
    · by_cases hlt : D x < acc.2
      · simp only [hlt, if_true]
        exact ⟨x, by simp, rfl, rfl⟩
      · simp only [hlt, if_false]
        obtain ⟨e, he, h⟩ := h1
        exact ⟨e, by simp [he], h⟩
    · intro e he
      rcases List.mem_append.mp he with he | he
      · by_cases hlt : D x < acc.2
        · simp only [hlt, if_true]
          exact le_trans (le_of_lt hlt) (h2 e he)
        · simp only [hlt, if_false]
          exact h2 e he
      · have hex : e = x := by simpa using he
        subst hex
        by_cases hlt : D e < acc.2
        · simp [hlt]
        · simp only [hlt, if_false]
          exact not_lt.mp hlt

lemma circular_buffer.push_back_all_map {α β : Type} (f : α → β) (src : List α) :
    ∀ dst : circular_buffer β,
      dst.push_back_all f src = dst.push_back_all (fun x => x) (src.map f) := by
  induction src with
  | nil => intro dst; rfl
  | cons v vs ih =>
    intro dst
    have h1 : dst.push_back_all f (v :: vs) = (dst.push_back (f v)).push_back_all f vs := rfl
    have h2 : dst.push_back_all (fun x => x) ((v :: vs).map f)
        = (dst.push_back (f v)).push_back_all (fun x => x) (vs.map f) := rfl
    rw [h1, h2, ih]

/-- Re-anchoring does not change the merged cloud as soon as the common factor
cancels in `inverse(T × A) × (T × B)`. -/
lemma LocalMap.buildCloud_reanchor (G : Geometry Mx DP) (T : Mx)
    (hc : ∀ A B, G.mul (G.inverse (G.mul T A)) (G.mul T B) = G.mul (G.inverse A) B)
    (w : LocalMap Mx DP) :
    LocalMap.buildCloud G (reanchor G T w).data_ = LocalMap.buildCloud G w.data_ := by
  unfold LocalMap.buildCloud reanchor
  simp only [← List.map_reverse]
  cases w.data_.elems.reverse with
  | nil => rfl
  | cons r others =>
    simp only [List.map_cons, List.foldl_map, hc]

lemma LocalMap.newComposition_data (d : DataBuffer Mx DP) (g : Graph Mx DP)
    (comp : Composition) (hk : comp.size ≤ comp.capacity) :
    ((d.clear).set_capacity comp.capacity).push_back_all (fun v => (v, g v)) comp.elems
      = ⟨comp.capacity, comp.elems.map (fun v => (v, g v))⟩ := by
  unfold circular_buffer.clear
  rw [circular_buffer.set_capacity_nil, circular_buffer.push_back_all_of_room]
  · simp
  · simpa [circular_buffer.size] using hk

/-- A window whose members all hold the keyframe that the graph has for their
vertex is not outdated, and neither is its reference keyframe. -/
lemma LocalMap.not_outdated_of_current (w : LocalMap Mx DP) (g : Graph Mx DP)
    (hcur : ∀ e ∈ w.data_.elems, e.2 = g e.1) (hne : w.data_.elems ≠ []) :
    LocalMap.IsOutdated w g = false ∧
    LocalMap.IsReferenceKeyframeOutdated w g = some false := by
  constructor
  · rw [← Bool.not_eq_true]
    simp only [LocalMap.IsOutdated, List.any_eq_true, decide_eq_true_eq, not_exists, not_and]
    intro e he
    rw [hcur e he]
    exact lt_irrefl _
  · rw [LocalMap.IsReferenceKeyframeOutdated, circular_buffer.back_eq_getLast _ hne]
    simp only [Option.map_some', Option.some.injEq, decide_eq_false_iff_not]
    rw [hcur _ (List.getLast_mem hne)]
    exact lt_irrefl _

/-- A window whose vertices are those of the composition, in its order, has the
same composition. -/
lemma LocalMap.HasSameComposition_of_vertices (w : LocalMap Mx DP) (comp : Composition)
    (hv : w.data_.elems.map (fun e => e.1) = comp.elems) (hne : comp.elems ≠ []) :
    LocalMap.HasSameComposition w comp = some true := by
  have hwne : w.data_.elems ≠ [] := by
    intro h0; rw [h0] at hv; exact hne hv.symm
  have hlast : comp.elems.getLast? = some (w.data_.elems.getLast hwne).1 := by
    rw [← hv, List.getLast?_map, List.getLast?_eq_getLast _ hwne]; rfl
  have href : LocalMap.HasSameReferenceVertex w comp = some true := by
    have hb : comp.back = some (w.data_.elems.getLast hwne).1 := hlast
    simp [LocalMap.HasSameReferenceVertex, circular_buffer.back_eq_getLast _ hwne, hb]
  have hsize : w.data_.size = comp.size := by
    simp only [circular_buffer.size, ← hv, List.length_map]
  have hset : LocalMap.HasSameVertexSet w comp = true := by
    have h1 : (w.data_.elems.all
        (fun elem => (comp.elems.find? (fun v => decide (elem.1 = v))).isSome)) = true := by
      simp only [List.all_eq_true, List.find?_isSome, decide_eq_true_eq]
      intro e he
      exact ⟨e.1, by rw [← hv]; exact List.mem_map.mpr ⟨e, he, rfl⟩, rfl⟩
    have h2 : (comp.elems.all
        (fun v => (w.data_.elems.find? (fun elem => decide (elem.1 = v))).isSome)) = true := by
      simp only [List.all_eq_true, List.find?_isSome, decide_eq_true_eq]
      intro v hvm
      rw [← hv] at hvm
      obtain ⟨e, he, hev⟩ := List.mem_map.mp hvm
      exact ⟨e, he, hev⟩
    have h0 : (w.data_.size != comp.size) = false := by simp [hsize]
    simp [LocalMap.HasSameVertexSet, h0, h1, h2]
  simp [LocalMap.HasSameComposition, href, hset]

/-- Transforming the merged cloud by the reference pose transforms it member by
member, when the transformation is an action that distributes over
concatenation and the reference pose cancels against its inverse. -/
lemma LocalMap.compute_foldl_merge (G : Geometry Mx DP)
    (hdist : ∀ a b A, G.compute (G.concatenate a b) A
      = G.concatenate (G.compute a A) (G.compute b A))
    (hact : ∀ c A B, G.compute (G.compute c A) B = G.compute c (G.mul B A))
    (P : Mx) (hcancel : ∀ B, G.mul P (G.mul (G.inverse P) B) = B)
    (others : List (DataElement Mx DP)) :
    ∀ init : DP,
      G.compute (others.foldl
        (fun cloud e =>
          G.concatenate cloud
            (G.compute e.2.cloud_ptr (G.mul (G.inverse P) e.2.optimized_T_world_kf)))
        init) P
      = others.foldl
        (fun cloud e => G.concatenate cloud (G.compute e.2.cloud_ptr e.2.optimized_T_world_kf))
        (G.compute init P) := by
  induction others with
  | nil => intro init; rfl
  | cons e es ih =>
    intro init
    simp only [List.foldl_cons]
    rw [ih, hdist, hact, hcancel]

end window

/-! ## Lemmas on the worker -/

section worker

variable {Mx DP S Icp MM : Type}

lemma Localizer.processed_append (a b : List (Call Mx DP S)) :
    Localizer.processed (a ++ b) = Localizer.processed a ++ Localizer.processed b := by
  simp [Localizer.processed, List.filterMap_append]

lemma Localizer.handled_append (a b : List (Call Mx DP S)) :
    Localizer.handled (a ++ b) = Localizer.handled a ++ Localizer.handled b := by
  simp [Localizer.handled, List.filterMap_append]

lemma Localizer.reported_append (a b : List (Call Mx DP S)) :
    Localizer.reported (a ++ b) = Localizer.reported a ++ Localizer.reported b := by
  simp [Localizer.reported, List.filterMap_append]

/-- One pass on a non-empty queue, `stop_` not set: the front observation is
taken and its cloud handed on; the pass ends either ready for the next one,
with the cloud reported to the map manager, or with the error of the engine;
it is the former when the engine does not raise. -/
lemma Localizer.MainIteration_cons (C : Collaborators Mx DP S Icp MM)
    (s : Localizer Mx DP S Icp MM) (d : InputTuple Mx DP) (rest : List (InputTuple Mx DP))
    (hstop : s.stop_ = false) (hq : s.new_data_buffer_ = d :: rest) :
    ∃ s1,
      ((Localizer.MainIteration C s = .next s1 ∧
          Localizer.reported s1.calls
            = Localizer.reported s.calls ++ [Localizer.robotCloud C d]) ∨
        Localizer.MainIteration C s = .raised s1) ∧
      s1.stop_ = false ∧ s1.new_data_buffer_ = rest ∧
      s1.count = (s.count + 1) % 4294967296 ∧
      Localizer.processed s1.calls = Localizer.processed s.calls ++ [d] ∧
      Localizer.handled s1.calls
        = Localizer.handled s.calls ++ [(Localizer.robotCloud C d, d.2.1)] ∧
      ((∀ icp cloud T, (C.register icp cloud T).isSome) →
        Localizer.MainIteration C s = .next s1) := by
  obtain ⟨cloud_ptr, T_world_robot, T_robot_sensor⟩ := d
  unfold Localizer.MainIteration
  simp only [hstop, hq, Bool.false_eq_true, if_false]
  split
  · refine ⟨_, Or.inl ⟨rfl, ?_⟩, rfl, rfl, rfl, ?_, ?_, fun _ => rfl⟩
    · simp [Localizer.reported_append, Localizer.reported, Localizer.robotCloud]
    · simp [Localizer.processed_append, Localizer.processed]
    · simp [Localizer.handled_append, Localizer.handled, Localizer.robotCloud]
  · split
    · next hnone =>
      refine ⟨_, Or.inr rfl, ?_, ?_, ?_, ?_, ?_, ?_⟩
      · split <;> rfl
      · split <;> rfl
      · split <;> rfl
      · split <;> simp [Localizer.processed_append, Localizer.processed]
      · split <;> simp [Localizer.handled_append, Localizer.handled, Localizer.robotCloud]
      · intro hreg
        have hsome := congrArg Option.isSome hnone
        rw [hreg] at hsome
        simp at hsome
    · next icp corrected hsome =>
      refine ⟨_, Or.inl ⟨rfl, ?_⟩, ?_, ?_, ?_, ?_, ?_, fun _ => rfl⟩
      · split <;> simp [Localizer.reported_append, Localizer.reported, Localizer.robotCloud]
      · split <;> rfl
      · split <;> rfl
      · split <;> rfl
      · split <;> simp [Localizer.processed_append, Localizer.processed]
      · split <;> simp [Localizer.handled_append, Localizer.handled, Localizer.robotCloud]

lemma Localizer.MainIteration_nil (C : Collaborators Mx DP S Icp MM)
    (s : Localizer Mx DP S Icp MM) (hstop : s.stop_ = false) (hq : s.new_data_buffer_ = []) :
    Localizer.MainIteration C s = .waiting s := by
  unfold Localizer.MainIteration
  simp [hstop, hq]

/-- With more fuel than queued observations, the loop either ends with the
error of the engine, or takes all the observations, front first, hands each
cloud on and reports it, and ends blocked on the empty queue. -/
lemma Localizer.MainLoop_drain (C : Collaborators Mx DP S Icp MM) :
    ∀ (q : List (InputTuple Mx DP)) (s : Localizer Mx DP S Icp MM) (fuel : Nat),
      s.stop_ = false → s.new_data_buffer_ = q → s.count < 4294967296 → q.length < fuel →
      (∃ s1, Localizer.MainLoop C fuel s = .raised s1) ∨
      ∃ s1, Localizer.MainLoop C fuel s = .waiting s1 ∧
        Localizer.processed s1.calls = Localizer.processed s.calls ++ q ∧
        Localizer.handled s1.calls = Localizer.handled s.calls
          ++ q.map (fun d => (Localizer.robotCloud C d, d.2.1)) ∧
        Localizer.reported s1.calls = Localizer.reported s.calls
          ++ q.map (fun d => Localizer.robotCloud C d) ∧
        s1.new_data_buffer_ = [] ∧ s1.count = (s.count + q.length) % 4294967296 := by
  intro q
  induction q with
  | nil =>
    intro s fuel hstop hq hcount hfuel
    obtain ⟨n, rfl⟩ : ∃ n, fuel = n + 1 := ⟨fuel - 1, by simp at hfuel; omega⟩
    refine Or.inr ⟨s, ?_, by simp, by simp, by simp, hq, ?_⟩
    · simp [Localizer.MainLoop, Localizer.MainIteration_nil C s hstop hq]
    · simp only [List.length_nil, Nat.add_zero]; omega
  | cons d rest ih =>
    intro s fuel hstop hq hcount hfuel
    obtain ⟨n, rfl⟩ : ∃ n, fuel = n + 1 := ⟨fuel - 1, by simp at hfuel; omega⟩
    obtain ⟨s1, hor, hstop1, hq1, hcount1, hproc1, hhand1, -⟩ :=
      Localizer.MainIteration_cons C s d rest hstop hq
    rcases hor with ⟨hnext, hrep1⟩ | hraised
    · have hlt1 : s1.count < 4294967296 := by rw [hcount1]; omega
      rcases ih s1 n hstop1 hq1 hlt1 (by simp at hfuel; omega) with ⟨s2, h2⟩ | ⟨s2, h2, hp, hh, hr, hq2, hc⟩
      · exact Or.inl ⟨s2, by simp only [Localizer.MainLoop, hnext]; exact h2⟩
      · refine Or.inr ⟨s2, ?_, ?_, ?_, ?_, hq2, ?_⟩
        · simp only [Localizer.MainLoop, hnext]; exact h2
        · rw [hp, hproc1]; simp
        · rw [hh, hhand1]; simp
        · rw [hr, hrep1]; simp
        · rw [hc, hcount1]; simp only [List.length_cons]; omega
    · exact Or.inl ⟨s1, by simp only [Localizer.MainLoop, hraised]⟩

/-- With an engine that never raises, no run of the loop ends with an error. -/
lemma Localizer.MainLoop_not_raised (C : Collaborators Mx DP S Icp MM)
    (hreg : ∀ icp cloud T, (C.register icp cloud T).isSome) :
    ∀ (fuel : Nat) (s s1 : Localizer Mx DP S Icp MM), s.stop_ = false →
      Localizer.MainLoop C fuel s ≠ .raised s1 := by
  intro fuel
  induction fuel with
  | zero => intro s s1 _ h; simp [Localizer.MainLoop] at h
  | succ n ih =>
    intro s s1 hstop h
    cases hq : s.new_data_buffer_ with
    | nil => simp [Localizer.MainLoop, Localizer.MainIteration_nil C s hstop hq] at h
    | cons d rest =>
      obtain ⟨s2, -, hstop2, -, -, -, -, hnext⟩ :=
        Localizer.MainIteration_cons C s d rest hstop hq
      simp only [Localizer.MainLoop, hnext hreg] at h
      exact ih s2 s1 hstop2 h

/-- Whatever the collaborators do and however long the loop runs, the
observations taken so far are the first ones of the queue, in its order. -/
lemma Localizer.MainLoop_take (C : Collaborators Mx DP S Icp MM) :
    ∀ (fuel : Nat) (s : Localizer Mx DP S Icp MM), s.stop_ = false →
      ∃ k, Localizer.processed (Localizer.MainLoop C fuel s).state.calls
        = Localizer.processed s.calls ++ s.new_data_buffer_.take k := by
  intro fuel
  induction fuel with
  | zero => intro s _; exact ⟨0, by simp [Localizer.MainLoop, Outcome.state]⟩
  | succ n ih =>
    intro s hstop
    cases hq : s.new_data_buffer_ with
    | nil =>
      refine ⟨0, ?_⟩
      simp [Localizer.MainLoop, Localizer.MainIteration_nil C s hstop hq, Outcome.state]
    | cons d rest =>
      obtain ⟨s1, hor, hstop1, hq1, -, hproc1, -, -⟩ :=
        Localizer.MainIteration_cons C s d rest hstop hq
      rcases hor with ⟨hnext, -⟩ | hraised
      · obtain ⟨k, hk⟩ := ih s1 hstop1
        refine ⟨k + 1, ?_⟩
        simp only [Localizer.MainLoop, hnext]
        rw [hk, hproc1, hq1]
        simp
      · refine ⟨1, ?_⟩
        simp only [Localizer.MainLoop, hraised, Outcome.state]
        rw [hproc1]
        simp

lemma Localizer.foldl_AddNewData (obs : List (InputTuple Mx DP)) :
    ∀ s : Localizer Mx DP S Icp MM,
      obs.foldl Localizer.AddNewData s
        = { s with new_data_buffer_ := s.new_data_buffer_ ++ obs } := by
  induction obs with
  | nil => intro s; simp
  | cons d rest ih =>
    intro s
    simp only [List.foldl_cons, ih]
    simp [Localizer.AddNewData]

end worker

/-! ## Lemmas on the exact operators -/

lemma exactGeometry_inverse (A : Pose) : exactGeometry.inverse A = A⁻¹ := by
  simp [exactGeometry, Matrix.inv_def, Ring.inverse_eq_inv']

lemma translation_mul (a b c x y z : ℚ) :
    translation a b c * translation x y z = translation (a + x) (b + y) (c + z) := by
  ext i j
  fin_cases i <;> fin_cases j <;>
    simp [translation, Matrix.mul_apply, Fin.sum_univ_four, Matrix.vecHead, Matrix.vecTail,
      add_comm]

lemma translation_zero : translation 0 0 0 = 1 := by
  ext i j
  fin_cases i <;> fin_cases j <;> simp [translation, Matrix.vecHead, Matrix.vecTail]

lemma exactGeometry_inverse_translation (x y z : ℚ) :
    exactGeometry.inverse (translation x y z) = translation (-x) (-y) (-z) := by
  rw [exactGeometry_inverse]
  apply Matrix.inv_eq_right_inv
  rw [translation_mul]
  simp [translation_zero]

lemma exactGeometry_inverse_one : exactGeometry.inverse 1 = 1 := by
  rw [exactGeometry_inverse]; simp

lemma exactGeometry_mul (A B : Pose) : exactGeometry.mul A B = A * B := rfl

lemma exactGeometry_compute (cloud : PointCloud) (A : Pose) :
    exactGeometry.compute cloud A = cloud.map (fun p => A.mulVec p) := rfl

lemma exactGeometry_concatenate (a b : PointCloud) : exactGeometry.concatenate a b = a ++ b :=
  rfl

lemma exactGeometry_cols (a : PointCloud) : exactGeometry.cols a = a.length := rfl

lemma translation_mulVec (x y z a b c : ℚ) :
    (translation x y z).mulVec (point a b c) = point (a + x) (b + y) (c + z) := by
  funext i
  fin_cases i <;>
    simp [translation, point, Matrix.mulVec, Matrix.dotProduct, Fin.sum_univ_four]

lemma point_inj (a b c x y z : ℚ) :
    point a b c = point x y z ↔ a = x ∧ b = y ∧ c = z := by
  constructor
  · intro h
    exact ⟨by simpa [point] using congrFun h 0, by simpa [point] using congrFun h 1,
      by simpa [point] using congrFun h 2⟩
  · rintro ⟨rfl, rfl, rfl⟩; rfl

lemma IsRigid.det_eq_one {A : Pose} (h : IsRigid A) : A.det = 1 := by
  obtain ⟨⟨h0, h1, h2, h3⟩, -, hdet⟩ := h
  rw [Matrix.det_succ_row A (Fin.last 3), Fin.sum_univ_castSucc]
  have hz : ∀ j : Fin 3, A (Fin.last 3) (Fin.castSucc j) = 0 := by
    intro j; fin_cases j
    · exact h0
    · exact h1
    · exact h2
  have hl : A (Fin.last 3) (Fin.last 3) = 1 := h3
  simp only [hz, hl, mul_zero, zero_mul, Finset.sum_const_zero, zero_add, mul_one]
  have hsub : (A.submatrix (Fin.last 3).succAbove (Fin.last 3).succAbove)
      = A.submatrix Fin.castSucc Fin.castSucc := by
    simp [Fin.succAbove_last]
  rw [hsub, hdet]
  norm_num

/-- In `inverse(T × A) × (T × B)` an invertible `T` cancels. -/
lemma exactGeometry_cancel (T : Pose) (hT : IsUnit T.det) (A B : Pose) :
    exactGeometry.mul (exactGeometry.inverse (exactGeometry.mul T A)) (exactGeometry.mul T B)
      = exactGeometry.mul (exactGeometry.inverse A) B := by
  simp only [exactGeometry_mul, exactGeometry_inverse]
  rw [Matrix.mul_inv_rev, Matrix.mul_assoc, ← Matrix.mul_assoc T⁻¹, Matrix.nonsing_inv_mul T hT,
    Matrix.one_mul]

lemma translation_block (x y z : ℚ) :
    (translation x y z).submatrix Fin.castSucc Fin.castSucc = (1 : Matrix (Fin 3) (Fin 3) ℚ) := by
  ext i j
  fin_cases i <;> fin_cases j <;> rfl

lemma translation_isRigid (x y z : ℚ) : IsRigid (translation x y z) := by
  refine ⟨⟨rfl, rfl, rfl, rfl⟩, ?_, ?_⟩
  · rw [translation_block]; simp
  · rw [translation_block]; simp

/-! ## Properties of the window -/

section claims

variable {Mx DP : Type}

/-- C1: for a composition `[v1..vk]` within its capacity, the buffer that
`LocalMap(g, composition)` initialises reads back through `GetComposition` as the
composition itself; the constructor completes whenever the composition has a
vertex, and the window it yields returns exactly `[v1..vk]` in the original
order. -/
theorem GetComposition_ofGraph (G : Geometry Mx DP) (g : Graph Mx DP) (comp : Composition)
    (hk : comp.size ≤ comp.capacity) :
    (∀ c : DP, LocalMap.GetComposition ⟨DataBuffer.ofGraph g comp, c⟩ = comp) ∧
    (∀ w, LocalMap.ofGraph G g comp = some w → w.GetComposition = comp) ∧
    (comp.elems ≠ [] →
      ∃ w, LocalMap.ofGraph G g comp = some w ∧ w.GetComposition.elems = comp.elems) := by
  have key : ∀ w : LocalMap Mx DP, w.data_ = DataBuffer.ofGraph g comp →
      w.GetComposition = comp := by
    intro w hw
    have hd := DataBuffer.ofGraph_value g comp hk
    rw [LocalMap.GetComposition_eq, hw, hd]
    · simp [Function.comp_def]
    · rw [hw, hd]; simpa [circular_buffer.size] using hk
  refine ⟨fun c => key _ rfl, fun w hw => key w (LocalMap.ofGraph_data G g comp w hw), ?_⟩
  intro hne
  have hd := DataBuffer.ofGraph_value g comp hk
  have hne2 : (DataBuffer.ofGraph g comp).elems ≠ [] := by
    rw [hd]; simpa using hne
  obtain ⟨w, hw⟩ := LocalMap.BuildCloudFromData_isSome G
    ⟨DataBuffer.ofGraph g comp, G.emptyCloud⟩ hne2
  exact ⟨w, hw, by rw [key w (LocalMap.ofGraph_data G g comp w hw)]⟩

/-- Witness of C1 on the composition `[7, 4]` of capacity three. -/
theorem GetComposition_ofGraph_witness :
    (⟨3, [7, 4]⟩ : Composition).size ≤ 3 ∧
    ∃ w, LocalMap.ofGraph exactGeometry sampleGraph ⟨3, [7, 4]⟩ = some w ∧
      w.GetComposition.elems = [7, 4] :=
  ⟨by decide,
    (GetComposition_ofGraph exactGeometry sampleGraph ⟨3, [7, 4]⟩ (by decide)).2.2 (by decide)⟩

/-- C2: on a non-empty window and a non-empty composition `c`,
`HasSameComposition(c)` returns, and returns true exactly when `c` has the size
of the window, the last vertex of `c` is the reference (last) vertex of the
window, and `c` and the window have the same set of vertices. -/
theorem HasSameComposition_iff (w : LocalMap Mx DP) (comp : Composition)
    (hw : w.data_.elems ≠ []) (hc : comp.elems ≠ []) :
    ∃ b, LocalMap.HasSameComposition w comp = some b ∧
      (b = true ↔
        (comp.size = w.data_.size ∧
         comp.elems.getLast hc = (w.data_.elems.getLast hw).1 ∧
         ∀ v, v ∈ comp.elems ↔ v ∈ w.data_.elems.map (fun e => e.1))) := by
  have hval : LocalMap.HasSameComposition w comp =
      some (decide ((w.data_.elems.getLast hw).1 = comp.elems.getLast hc) &&
        LocalMap.HasSameVertexSet w comp) := by
    simp only [LocalMap.HasSameComposition, LocalMap.HasSameReferenceVertex,
      circular_buffer.back_eq_getLast _ hw, circular_buffer.back_eq_getLast _ hc,
      Option.map_some']
  refine ⟨_, hval, ?_⟩
  simp only [Bool.and_eq_true, decide_eq_true_eq, LocalMap.HasSameVertexSet]
  constructor
  · rintro ⟨href, hset⟩
    split at hset
    · simp at hset
    · next hsz =>
      split at hset
      · simp at hset
      · next h1 =>
        split at hset
        · simp at hset
        · next h2 =>
          simp only [bne_iff_ne, ne_eq, not_not] at hsz
          simp only [Bool.not_eq_true, Bool.not_eq_false, Bool.not_eq_eq_eq_not, Bool.not_true,
            List.all_eq_true, List.find?_isSome, decide_eq_true_eq] at h1 h2
          refine ⟨hsz.symm, href.symm, fun v => ⟨fun hv => ?_, fun hv => ?_⟩⟩
          · obtain ⟨e, he, hev⟩ := h2 v hv
            exact List.mem_map.mpr ⟨e, he, hev⟩
          · obtain ⟨e, he, hev⟩ := List.mem_map.mp hv
            obtain ⟨v1, hv1, hev1⟩ := h1 e he
            rw [← hev, hev1]; exact hv1
  · rintro ⟨hsz, href, hset⟩
    refine ⟨href.symm, ?_⟩
    have h1 : (w.data_.elems.all
        (fun elem => (comp.elems.find? (fun v => decide (elem.1 = v))).isSome)) = true := by
      simp only [List.all_eq_true, List.find?_isSome, decide_eq_true_eq]
      intro e he
      exact ⟨e.1, (hset e.1).mpr (List.mem_map.mpr ⟨e, he, rfl⟩), rfl⟩
    have h2 : (comp.elems.all
        (fun v => (w.data_.elems.find? (fun elem => decide (elem.1 = v))).isSome)) = true := by
      simp only [List.all_eq_true, List.find?_isSome, decide_eq_true_eq]
      intro v hv
      obtain ⟨e, he, hev⟩ := List.mem_map.mp ((hset v).mp hv)
      exact ⟨e, he, hev⟩
    have h0 : (w.data_.size != comp.size) = false := by simp [hsz]
    simp [h0, h1, h2]

/-- Witness of C2: the full window `[1, 2, 3]` has the composition `[2, 1, 3]`,
whose non-reference vertices come in another order. -/
theorem HasSameComposition_iff_witness :
    ∃ b, LocalMap.HasSameComposition fullWindow ⟨3, [2, 1, 3]⟩ = some b ∧ b = true := by
  obtain ⟨b, hb, hiff⟩ := HasSameComposition_iff fullWindow ⟨3, [2, 1, 3]⟩
    (by simp [fullWindow]) (by simp)
  refine ⟨b, hb, hiff.mpr ⟨rfl, rfl, ?_⟩⟩
  intro v
  simp only [fullWindow, List.map_cons, List.map_nil, List.mem_cons, List.mem_nil_iff, or_false]
  tauto

/-- C3: `IsOutdated(g)` is true exactly when some member's update timestamp in
`g` is strictly greater than the timestamp captured in that member's snapshot;
it is false when every graph timestamp equals the captured one. -/
theorem IsOutdated_iff (w : LocalMap Mx DP) (g : Graph Mx DP) :
    (LocalMap.IsOutdated w g = true ↔
      ∃ e ∈ w.data_.elems, e.2.update_time < (g e.1).update_time) ∧
    ((∀ e ∈ w.data_.elems, (g e.1).update_time = e.2.update_time) →
      LocalMap.IsOutdated w g = false) := by
  have hiff : LocalMap.IsOutdated w g = true ↔
      ∃ e ∈ w.data_.elems, e.2.update_time < (g e.1).update_time := by
    simp [LocalMap.IsOutdated, List.any_eq_true]
  refine ⟨hiff, fun hall => ?_⟩
  rw [← Bool.not_eq_true, hiff]
  rintro ⟨e, he, hlt⟩
  have := hall e he
  omega

/-- Witness of C3: the sample window is up to date with the graph it was
captured from. -/
theorem IsOutdated_iff_witness : LocalMap.IsOutdated sampleWindow sampleGraph = false :=
  (IsOutdated_iff sampleWindow sampleGraph).2 (by
    intro e he
    simp only [sampleWindow, List.mem_cons, List.mem_nil_iff, or_false] at he
    rcases he with rfl | rfl <;> rfl)

/-- C4, as amended: on a non-empty window the rebuild completes, keeps the members, and
the merged cloud is the reference keyframe's own cloud followed by the other
members taken from the one just before the reference back to the front of the
window (reverse iteration), each transformed by
`inverse(reference world pose) × member world pose`. -/
theorem BuildCloudFromData_reverse_order (G : Geometry Mx DP) (w : LocalMap Mx DP)
    (h : w.data_.elems ≠ []) :
    ∃ w1, LocalMap.BuildCloudFromData G w = some w1 ∧ w1.data_ = w.data_ ∧
      w1.Cloud = w.data_.elems.dropLast.reverse.foldl
        (fun cloud e =>
          G.concatenate cloud
            (G.compute e.2.cloud_ptr
              (G.mul (G.inverse (w.data_.elems.getLast h).2.optimized_T_world_kf)
                e.2.optimized_T_world_kf)))
        (w.data_.elems.getLast h).2.cloud_ptr :=
  ⟨_, LocalMap.BuildCloudFromData_eq G w h, rfl, rfl⟩

/-- Witness of C4, as amended, on the full window `[1, 2, 3]`: the merged cloud
holds the points of keyframes 3, 2 and 1, in that order, in the frame of
keyframe 3. -/
theorem BuildCloudFromData_reverse_order_witness :
    ∃ w1, LocalMap.BuildCloudFromData exactGeometry fullWindow = some w1 ∧
      w1.Cloud = [point 3 0 0, point 1 0 0, point (-1) 0 0] := by
  obtain ⟨w1, h1, -, h3⟩ := BuildCloudFromData_reverse_order exactGeometry fullWindow
    (by simp [fullWindow])
  refine ⟨w1, h1, ?_⟩
  rw [h3]
  simp only [fullWindow, sampleGraph, List.dropLast, List.reverse_cons, List.reverse_nil,
    List.nil_append, List.cons_append, List.getLast_cons_cons, List.getLast_singleton,
    List.foldl_cons, List.foldl_nil, exactGeometry_inverse_translation, exactGeometry_mul,
    exactGeometry_compute, exactGeometry_concatenate, translation_mul, List.map_cons,
    List.map_nil, translation_mulVec, List.cons.injEq, point_inj, and_true]
  norm_num

/-- C4, counterexample: on the full window `[1, 2, 3]` the rebuild yields the
points of keyframes 3, 2, 1 in that order, while the merge taken in the window's
own iteration order yields those of 3, 1, 2. -/
theorem BuildCloudFromData_not_window_order :
    (LocalMap.BuildCloudFromData exactGeometry fullWindow).map LocalMap.Cloud
        = some [point 3 0 0, point 1 0 0, point (-1) 0 0] ∧
    mergeInWindowOrder exactGeometry fullWindow.data_
        = some [point 3 0 0, point (-1) 0 0, point 1 0 0] ∧
    (LocalMap.BuildCloudFromData exactGeometry fullWindow).map LocalMap.Cloud
        ≠ mergeInWindowOrder exactGeometry fullWindow.data_ := by
  have hb : (LocalMap.BuildCloudFromData exactGeometry fullWindow).map LocalMap.Cloud
      = some [point 3 0 0, point 1 0 0, point (-1) 0 0] := by
    rw [LocalMap.BuildCloudFromData_eq exactGeometry fullWindow (by simp [fullWindow])]
    simp only [fullWindow, sampleGraph, List.dropLast, List.reverse_cons, List.reverse_nil,
      List.nil_append, List.cons_append, List.getLast_cons_cons, List.getLast_singleton,
      List.foldl_cons, List.foldl_nil, exactGeometry_inverse_translation, exactGeometry_mul,
      exactGeometry_compute, exactGeometry_concatenate, translation_mul, List.map_cons,
      List.map_nil, translation_mulVec, Option.map_some', LocalMap.Cloud, Option.some.injEq,
      List.cons.injEq, point_inj, and_true]
    norm_num
  have hm : mergeInWindowOrder exactGeometry fullWindow.data_
      = some [point 3 0 0, point (-1) 0 0, point 1 0 0] := by
    simp only [mergeInWindowOrder, circular_buffer.back, fullWindow, sampleGraph,
      List.getLast?_cons_cons, List.getLast?_singleton, Option.map_some', List.dropLast,
      List.foldl_cons, List.foldl_nil, exactGeometry_inverse_translation, exactGeometry_mul,
      exactGeometry_compute, exactGeometry_concatenate, translation_mul, List.map_cons,
      List.map_nil, translation_mulVec, List.cons_append, List.nil_append, Option.some.injEq,
      List.cons.injEq, point_inj, and_true]
    norm_num
  refine ⟨hb, hm, ?_⟩
  rw [hb, hm]
  simp only [ne_eq, Option.some.injEq, List.cons.injEq, point_inj, and_true, true_and]
  norm_num

/-- C5, as amended: a window of capacity three seeded with keyframe `B` (world
pose the translation by `(1, 0, 0)`) and then keyframe `A` (the reference,
identity world pose) has as merged cloud `A`'s untransformed cloud followed by
`B`'s cloud transformed by the translation `(1, 0, 0)`, and its point count is
`|A| + |B|`. -/
theorem merge_two_keyframes (g : Graph Pose PointCloud) (vA vB : Vertex)
    (hA : (g vA).optimized_T_world_kf = 1)
    (hB : (g vB).optimized_T_world_kf = translation 1 0 0) :
    ∃ w, LocalMap.ofGraph exactGeometry g ⟨3, [vB, vA]⟩ = some w ∧
      w.Cloud = exactGeometry.concatenate (g vA).cloud_ptr
        (exactGeometry.compute (g vB).cloud_ptr (translation 1 0 0)) ∧
      exactGeometry.cols w.Cloud =
        exactGeometry.cols (g vA).cloud_ptr + exactGeometry.cols (g vB).cloud_ptr := by
  have hw : LocalMap.ofGraph exactGeometry g ⟨3, [vB, vA]⟩ = some
      ⟨⟨3, [(vB, g vB), (vA, g vA)]⟩, exactGeometry.concatenate (g vA).cloud_ptr
        (exactGeometry.compute (g vB).cloud_ptr (translation 1 0 0))⟩ := by
    rw [LocalMap.ofGraph_eq exactGeometry g ⟨3, [vB, vA]⟩ (by simp [circular_buffer.size])]
    simp only [LocalMap.BuildCloudFromData, LocalMap.buildCloud, List.map_cons, List.map_nil,
      List.reverse_cons, List.reverse_nil, List.nil_append, List.cons_append, List.foldl_cons,
      List.foldl_nil, hA, hB, exactGeometry_inverse_one, exactGeometry_mul, one_mul,
      Option.map_some']
  refine ⟨_, hw, rfl, ?_⟩
  simp [LocalMap.Cloud, exactGeometry_cols, exactGeometry_concatenate, exactGeometry_compute]

/-- Witness of C5, as amended, on the scenario graph: `A` is vertex 0 and `B` is
vertex 1. -/
theorem merge_two_keyframes_witness :
    ∃ w, LocalMap.ofGraph exactGeometry scenarioGraph ⟨3, [1, 0]⟩ = some w ∧
      w.Cloud = [point 0 0 0, point 6 0 0] ∧ exactGeometry.cols w.Cloud = 2 := by
  obtain ⟨w, hw, hc, hn⟩ := merge_two_keyframes scenarioGraph 0 1
    (by simp [scenarioGraph]) (by simp [scenarioGraph])
  refine ⟨w, hw, ?_, ?_⟩
  · rw [hc]
    simp only [scenarioGraph, if_true, one_ne_zero, if_false, exactGeometry_compute,
      exactGeometry_concatenate, List.map_cons, List.map_nil, translation_mulVec,
      List.cons_append, List.nil_append, List.cons.injEq, point_inj, and_true]
    norm_num
  · rw [hn]
    simp [scenarioGraph, exactGeometry_cols]

/-- C5, counterexample: in the scenario (`A` one point at the origin, `B` one
point at `(5, 0, 0)`) the merged cloud is `[(0,0,0), (6,0,0)]`; it is not `B`'s
cloud translated by `(-1, 0, 0)` joined with `A`'s cloud, in either order. -/
theorem merge_two_keyframes_not_minus_one :
    ∃ w, LocalMap.ofGraph exactGeometry scenarioGraph ⟨3, [1, 0]⟩ = some w ∧
      w.Cloud = [point 0 0 0, point 6 0 0] ∧
      w.Cloud ≠ exactGeometry.concatenate
        (exactGeometry.compute (scenarioGraph 1).cloud_ptr (translation (-1) 0 0))
        (scenarioGraph 0).cloud_ptr ∧
      w.Cloud ≠ exactGeometry.concatenate (scenarioGraph 0).cloud_ptr
        (exactGeometry.compute (scenarioGraph 1).cloud_ptr (translation (-1) 0 0)) := by
  have hcloud : ∀ w, LocalMap.ofGraph exactGeometry scenarioGraph ⟨3, [1, 0]⟩ = some w →
      w.Cloud = [point 0 0 0, point 6 0 0] := by
    intro w hw
    rw [LocalMap.ofGraph_eq exactGeometry scenarioGraph ⟨3, [1, 0]⟩ (by decide)] at hw
    simp only [LocalMap.BuildCloudFromData, LocalMap.buildCloud, List.map_cons, List.map_nil,
      List.reverse_cons, List.reverse_nil, List.nil_append, List.cons_append, List.foldl_cons,
      List.foldl_nil, scenarioGraph, if_true, one_ne_zero, if_false, exactGeometry_inverse_one,
      exactGeometry_mul, one_mul, exactGeometry_compute, exactGeometry_concatenate,
      translation_mulVec, Option.map_some', Option.some.injEq] at hw
    rw [← hw]
    simp only [LocalMap.Cloud, List.cons.injEq, point_inj, and_true, true_and]
    norm_num
  obtain ⟨w, hw⟩ : ∃ w, LocalMap.ofGraph exactGeometry scenarioGraph ⟨3, [1, 0]⟩ = some w := by
    rw [LocalMap.ofGraph_eq exactGeometry scenarioGraph ⟨3, [1, 0]⟩ (by decide)]
    exact LocalMap.BuildCloudFromData_isSome exactGeometry _ (by simp)
  refine ⟨w, hw, hcloud w hw, ?_, ?_⟩
  · rw [hcloud w hw]
    simp only [scenarioGraph, if_true, one_ne_zero, if_false, exactGeometry_compute,
      exactGeometry_concatenate, List.map_cons, List.map_nil, translation_mulVec,
      List.cons_append, List.nil_append, ne_eq, List.cons.injEq, point_inj, and_true]
    norm_num
  · rw [hcloud w hw]
    simp only [scenarioGraph, if_true, one_ne_zero, if_false, exactGeometry_compute,
      exactGeometry_concatenate, List.map_cons, List.map_nil, translation_mulVec,
      List.cons_append, List.nil_append, ne_eq, List.cons.injEq, point_inj, and_true, true_and]
    norm_num

/-- C6: on a non-empty window, with a rigid transformation that preserves the
point count and a concatenation that adds the counts, the rebuild completes and
the number of points of `Cloud()` is the sum of the numbers of points of the
clouds of all members, each counted once. -/
theorem Cloud_cols_eq_sum (G : Geometry Mx DP)
    (hT : ∀ c A, G.cols (G.compute c A) = G.cols c)
    (hC : ∀ a b, G.cols (G.concatenate a b) = G.cols a + G.cols b)
    (w : LocalMap Mx DP) (h : w.data_.elems ≠ []) :
    ∃ w1, LocalMap.BuildCloudFromData G w = some w1 ∧
      G.cols w1.Cloud = (w.data_.elems.map (fun e => G.cols e.2.cloud_ptr)).sum := by
  refine ⟨_, LocalMap.BuildCloudFromData_eq G w h, ?_⟩
  simp only [LocalMap.Cloud]
  rw [LocalMap.cols_foldl_merge G hT hC]
  conv_rhs => rw [← List.dropLast_append_getLast h]
  simp only [List.map_reverse, List.sum_reverse, List.map_append, List.sum_append, List.map_cons,
    List.map_nil, List.sum_cons, List.sum_nil]
  omega

/-- Witness of C6: the merged cloud of the full window `[1, 2, 3]`, whose
keyframes hold one point each, has three points. -/
theorem Cloud_cols_eq_sum_witness :
    ∃ w1, LocalMap.BuildCloudFromData exactGeometry fullWindow = some w1 ∧
      exactGeometry.cols w1.Cloud = 3 := by
  obtain ⟨w1, h1, h2⟩ := Cloud_cols_eq_sum exactGeometry
    (fun c A => by simp [exactGeometry]) (fun a b => by simp [exactGeometry])
    fullWindow (by simp [fullWindow])
  refine ⟨w1, h1, ?_⟩
  rw [h2]
  simp [fullWindow, sampleGraph, exactGeometry]

/-- C7: on a non-empty window `FindClosestVertex(pose)` returns the vertex of a
member whose optimized world pose is at a distance from the query pose that is
less than or equal to the distance of every member's pose. -/
theorem FindClosestVertex_min {S : Type} [LinearOrder S] (Distance : Mx → Mx → S)
    (w : LocalMap Mx DP) (T_world_x : Mx) (h : w.data_.elems ≠ []) :
    ∃ v, LocalMap.FindClosestVertex Distance w T_world_x = some v ∧
      ∃ e ∈ w.data_.elems, e.1 = v ∧
        ∀ e1 ∈ w.data_.elems,
          Distance e.2.optimized_T_world_kf T_world_x
            ≤ Distance e1.2.optimized_T_world_kf T_world_x := by
  unfold LocalMap.FindClosestVertex
  cases hel : w.data_.elems with
  | nil => exact absurd hel h
  | cons first rest =>
    have key := LocalMap.closest_foldl
      (fun e : DataElement Mx DP => Distance e.2.optimized_T_world_kf T_world_x) rest [first]
      (first.1, Distance first.2.optimized_T_world_kf T_world_x)
      ⟨first, by simp, rfl, rfl⟩ (by simp)
    obtain ⟨⟨e, he, hv, hd⟩, hmin⟩ := key
    refine ⟨_, rfl, e, by simpa using he, hv, ?_⟩
    intro e1 he1
    exact le_of_eq_of_le hd (hmin e1 (by simpa using he1))

/-- Witness of C7 on the full window `[1, 2, 3]`, queried at `(2, 0, 0)`. -/
theorem FindClosestVertex_min_witness :
    ∃ v, LocalMap.FindClosestVertex sampleDistance fullWindow (translation 2 0 0) = some v ∧
      ∃ e ∈ fullWindow.data_.elems, e.1 = v ∧
        ∀ e1 ∈ fullWindow.data_.elems,
          sampleDistance e.2.optimized_T_world_kf (translation 2 0 0)
            ≤ sampleDistance e1.2.optimized_T_world_kf (translation 2 0 0) :=
  FindClosestVertex_min sampleDistance fullWindow (translation 2 0 0) (by simp [fullWindow])

/-- C8, as amended: after `UpdateToNewComposition(graph, composition)` with a
non-empty composition within its capacity, `Capacity()` equals the capacity of
the new composition, and the members are exactly the composition's vertices in
order, each paired with the graph's current keyframe for that vertex. -/
theorem UpdateToNewComposition_members (G : Geometry Mx DP) (w : LocalMap Mx DP)
    (g : Graph Mx DP) (comp : Composition)
    (hk : comp.size ≤ comp.capacity) (hne : comp.elems ≠ []) :
    ∃ w1, LocalMap.UpdateToNewComposition G w g comp = some w1 ∧
      w1.Capacity = comp.capacity ∧
      w1.data_.elems = comp.elems.map (fun v => (v, g v)) := by
  have hd : ((w.data_.clear).set_capacity comp.capacity).push_back_all
      (fun v => (v, g v)) comp.elems
      = (⟨comp.capacity, comp.elems.map (fun v => (v, g v))⟩ : DataBuffer Mx DP) := by
    unfold circular_buffer.clear
    rw [circular_buffer.set_capacity_nil, circular_buffer.push_back_all_of_room]
    · simp
    · simpa [circular_buffer.size] using hk
  have hne2 : (comp.elems.map (fun v => (v, g v))) ≠ [] := by simpa using hne
  obtain ⟨w1, hw1⟩ := LocalMap.BuildCloudFromData_isSome G
    { w with data_ := ⟨comp.capacity, comp.elems.map (fun v => (v, g v))⟩ } hne2
  have hdata := LocalMap.BuildCloudFromData_data G _ w1 hw1
  refine ⟨w1, ?_, ?_, ?_⟩
  · rw [LocalMap.UpdateToNewComposition, hd]; exact hw1
  · rw [LocalMap.Capacity, hdata]
  · rw [hdata]

/-- Witness of C8, as amended: the sample window updated to the composition
`[1, 2]` of capacity three. -/
theorem UpdateToNewComposition_members_witness :
    ∃ w1, LocalMap.UpdateToNewComposition exactGeometry sampleWindow sampleGraph ⟨3, [1, 2]⟩
        = some w1 ∧
      w1.Capacity = 3 ∧ w1.data_.elems = [(1, sampleGraph 1), (2, sampleGraph 2)] :=
  UpdateToNewComposition_members exactGeometry sampleWindow sampleGraph ⟨3, [1, 2]⟩
    (by decide) (by decide)

/-- C8, counterexample: updating to the composition `[1, 2]` of capacity three
leaves `Capacity()` at three, which is not the number of vertices, two. -/
theorem UpdateToNewComposition_capacity_ne_size :
    ∃ w1, LocalMap.UpdateToNewComposition exactGeometry sampleWindow sampleGraph ⟨3, [1, 2]⟩
        = some w1 ∧
      w1.Capacity = 3 ∧ w1.Capacity ≠ (⟨3, [1, 2]⟩ : Composition).size := by
  have hne : ((⟨3, [1, 2]⟩ : Composition).elems.map (fun v => (v, sampleGraph v))) ≠ [] := by
    simp
  obtain ⟨w1, hw1⟩ := LocalMap.BuildCloudFromData_isSome exactGeometry
    { sampleWindow with data_ := ⟨3, [(1, sampleGraph 1), (2, sampleGraph 2)]⟩ } (by simp)
  have hdata := LocalMap.BuildCloudFromData_data exactGeometry _ w1 hw1
  have hcap : w1.Capacity = 3 := by rw [LocalMap.Capacity, hdata]
  refine ⟨w1, ?_, hcap, ?_⟩
  · rw [← hw1]
    rfl
  · rw [hcap]
    decide

/-- C9: on a non-empty window `UpdateFromGraph(g)` completes, leaves the
capacity and the ordered vertex sequence (`GetComposition()`) unchanged, and
replaces the captured keyframe of each member by the keyframe of `g` for that
member's vertex. -/
theorem UpdateFromGraph_frame (G : Geometry Mx DP) (w : LocalMap Mx DP) (g : Graph Mx DP)
    (h : w.data_.elems ≠ []) :
    ∃ w1, LocalMap.UpdateFromGraph G w g = some w1 ∧
      w1.Capacity = w.Capacity ∧
      w1.GetComposition = w.GetComposition ∧
      w1.data_.elems.map (fun e => e.1) = w.data_.elems.map (fun e => e.1) ∧
      w1.data_.elems = w.data_.elems.map (fun e => (e.1, g e.1)) := by
  have hne : (w.data_.elems.map (fun e => (e.1, g e.1))) ≠ [] := by simpa using h
  obtain ⟨w1, hw1⟩ := LocalMap.BuildCloudFromData_isSome G
    { w with data_ := { w.data_ with elems := w.data_.elems.map (fun e => (e.1, g e.1)) } } hne
  have hdata := LocalMap.BuildCloudFromData_data G _ w1 hw1
  have hvs : w1.data_.elems.map (fun e => e.1) = w.data_.elems.map (fun e => e.1) := by
    rw [hdata]; simp [Function.comp_def]
  refine ⟨w1, hw1, ?_, ?_, hvs, ?_⟩
  · rw [LocalMap.Capacity, hdata]; rfl
  · have hcap : w1.data_.capacity = w.data_.capacity := by rw [hdata]
    unfold LocalMap.GetComposition
    rw [circular_buffer.push_back_all_map, circular_buffer.push_back_all_map _ w.data_.elems,
      hvs, hcap]
  · rw [hdata]

/-- Witness of C9: the sample window refreshed from the later graph keeps the
vertices 7 and 4 and takes the later keyframes. -/
theorem UpdateFromGraph_frame_witness :
    ∃ w1, LocalMap.UpdateFromGraph exactGeometry sampleWindow laterGraph = some w1 ∧
      w1.Capacity = 3 ∧ w1.data_.elems = [(7, laterGraph 7), (4, laterGraph 4)] := by
  obtain ⟨w1, h1, h2, -, -, h5⟩ := UpdateFromGraph_frame exactGeometry sampleWindow laterGraph
    (by simp [sampleWindow])
  exact ⟨w1, h1, h2, h5⟩

/-- C10: on a non-empty window `IsReferenceKeyframeOutdated(g)` returns, and
returns true exactly when the update timestamp of `g` for the reference (last)
vertex is strictly greater than the timestamp captured in the reference
element; a window with the same reference element gives the same answer,
whatever its other members. -/
theorem IsReferenceKeyframeOutdated_iff (w : LocalMap Mx DP) (g : Graph Mx DP)
    (h : w.data_.elems ≠ []) :
    (∃ b, LocalMap.IsReferenceKeyframeOutdated w g = some b ∧
      (b = true ↔
        (w.data_.elems.getLast h).2.update_time
          < (g (w.data_.elems.getLast h).1).update_time)) ∧
    (∀ w2 : LocalMap Mx DP, w2.data_.elems.getLast? = w.data_.elems.getLast? →
      LocalMap.IsReferenceKeyframeOutdated w2 g = LocalMap.IsReferenceKeyframeOutdated w g) := by
  constructor
  · refine ⟨decide ((g (w.data_.elems.getLast h).1).update_time
        > (w.data_.elems.getLast h).2.update_time), ?_, ?_⟩
    · simp [LocalMap.IsReferenceKeyframeOutdated, circular_buffer.back_eq_getLast _ h]
    · simp
  · intro w2 h2
    simp only [LocalMap.IsReferenceKeyframeOutdated, circular_buffer.back, h2]

/-- Witness of C10: the reference keyframe of the sample window, captured at
time 4, is outdated with respect to the later graph, where it has time 5. -/
theorem IsReferenceKeyframeOutdated_iff_witness :
    ∃ b, LocalMap.IsReferenceKeyframeOutdated sampleWindow laterGraph = some b ∧ b = true := by
  obtain ⟨b, hb, hiff⟩ := (IsReferenceKeyframeOutdated_iff sampleWindow laterGraph
    (by simp [sampleWindow])).1
  refine ⟨b, hb, hiff.mpr ?_⟩
  simp [sampleWindow, sampleGraph, laterGraph]

/-- C11: for every rigid transform `T` and every non-empty window, rebuilding
the window whose members' world poses `P` have all been replaced by `T × P`
yields the same merged cloud as rebuilding the window itself (poses as exact
rational matrices). -/
theorem BuildCloudFromData_reanchor (T : Pose) (hT : IsRigid T)
    (w : LocalMap Pose PointCloud) (h : w.data_.elems ≠ []) :
    ∃ w1 w2, LocalMap.BuildCloudFromData exactGeometry w = some w1 ∧
      LocalMap.BuildCloudFromData exactGeometry (reanchor exactGeometry T w) = some w2 ∧
      w2.Cloud = w1.Cloud := by
  have hunit : IsUnit T.det := by rw [hT.det_eq_one]; exact isUnit_one
  have hb := LocalMap.buildCloud_reanchor exactGeometry T (exactGeometry_cancel T hunit) w
  obtain ⟨c, hc⟩ := LocalMap.buildCloud_isSome exactGeometry w.data_ h
  refine ⟨{ w with cloud_ := c }, { reanchor exactGeometry T w with cloud_ := c }, ?_, ?_, rfl⟩
  · simp [LocalMap.BuildCloudFromData, hc]
  · simp [LocalMap.BuildCloudFromData, hb, hc]

/-- Witness of C11: the full window `[1, 2, 3]` moved by `(10, -4, 2)` has the
merged cloud it had before. -/
theorem BuildCloudFromData_reanchor_witness :
    ∃ w1 w2, LocalMap.BuildCloudFromData exactGeometry fullWindow = some w1 ∧
      LocalMap.BuildCloudFromData exactGeometry
        (reanchor exactGeometry (translation 10 (-4) 2) fullWindow) = some w2 ∧
      w2.Cloud = w1.Cloud :=
  BuildCloudFromData_reanchor (translation 10 (-4) 2) (translation_isRigid 10 (-4) 2)
    fullWindow (by simp [fullWindow])

/-- C12, as amended: after `N` observations have been enqueued by `AddNewData`
on a localizer just constructed, and the worker is started with no stop
requested, the observations the worker takes are at every moment the first
ones enqueued, in the order of enqueueing; in a run of more than `N` passes in
which no registration raises an error, all `N` are processed, one per pass, in
exactly that order (each taken from the queue, filtered, transformed, handed
on with its world pose and reported to the map manager), and the worker is
left waiting on the empty queue; with an engine that never raises, no run
ends with an error. -/
theorem Run_processes_in_order {S Icp MM : Type} (C : Collaborators Mx DP S Icp MM)
    (icp : Icp) (mm : MM) (obs : List (InputTuple Mx DP)) :
    (∀ fuel, Localizer.processed
        (Localizer.Run C fuel (obs.foldl Localizer.AddNewData (Localizer.create icp mm))).state.calls
        <+: obs) ∧
    (∀ fuel, obs.length < fuel →
      (∀ s1, Localizer.Run C fuel (obs.foldl Localizer.AddNewData (Localizer.create icp mm))
          ≠ .raised s1) →
        ∃ s1, Localizer.Run C fuel (obs.foldl Localizer.AddNewData (Localizer.create icp mm))
            = .waiting s1 ∧
          Localizer.processed s1.calls = obs ∧
          Localizer.handled s1.calls = obs.map (fun d => (Localizer.robotCloud C d, d.2.1)) ∧
          Localizer.reported s1.calls = obs.map (fun d => Localizer.robotCloud C d) ∧
          s1.new_data_buffer_ = [] ∧
          s1.count = obs.length % 4294967296) ∧
    ((∀ icp1 cloud T, (C.register icp1 cloud T).isSome) →
      ∀ fuel s1, Localizer.Run C fuel (obs.foldl Localizer.AddNewData (Localizer.create icp mm))
        ≠ .raised s1) := by
  rw [Localizer.foldl_AddNewData]
  simp only [Localizer.Run, Localizer.Main, Localizer.create, List.nil_append]
  refine ⟨fun fuel => ?_, fun fuel hfuel hnr => ?_, fun hreg fuel s1 => ?_⟩
  · obtain ⟨k, hk⟩ := Localizer.MainLoop_take C fuel
      { stop_ := false, new_data_buffer_ := obs, icp_sequence_ := icp, map_manager_ptr_ := mm,
        count := 0, calls := [] } rfl
    rw [hk]
    simpa [Localizer.processed] using List.take_prefix k obs
  · rcases Localizer.MainLoop_drain C obs
      { stop_ := false, new_data_buffer_ := obs, icp_sequence_ := icp, map_manager_ptr_ := mm,
        count := 0, calls := [] } fuel rfl rfl (by norm_num) hfuel with
      ⟨s1, h1⟩ | ⟨s1, h1, h2, h3, h4, h5, h6⟩
    · exact absurd h1 (hnr s1)
    · refine ⟨s1, h1, ?_, ?_, ?_, h5, ?_⟩
      · simpa [Localizer.processed] using h2
      · simpa [Localizer.handled] using h3
      · simpa [Localizer.reported] using h4
      · simpa using h6
  · exact Localizer.MainLoop_not_raised C hreg fuel _ s1 rfl

/-- Witness of C12, as amended: three observations marked 5, 6, 7 enqueued on a
fresh localizer are processed in that order, with no error raised. -/
theorem Run_processes_in_order_witness :
    ∃ s1, Localizer.Run (sampleCollaborators (fun _ => false)) 4
        ([(5, 0, 0), (6, 0, 0), (7, 0, 0)].foldl Localizer.AddNewData
          (Localizer.create false [])) = .waiting s1 ∧
      Localizer.processed s1.calls = [(5, 0, 0), (6, 0, 0), (7, 0, 0)] ∧
      Localizer.handled s1.calls = [(5, 0), (6, 0), (7, 0)] ∧
      Localizer.reported s1.calls = [5, 6, 7] ∧
      s1.new_data_buffer_ = [] ∧ s1.count = 3 :=
  (Run_processes_in_order (sampleCollaborators (fun _ => false)) false []
    [(5, 0, 0), (6, 0, 0), (7, 0, 0)]).2.1 4 (by decide)
    (fun s1 h => by
      have hrun : Localizer.Run (sampleCollaborators (fun _ => false)) 4
          ([(5, 0, 0), (6, 0, 0), (7, 0, 0)].foldl Localizer.AddNewData
            (Localizer.create false []))
          = .waiting (Localizer.Run (sampleCollaborators (fun _ => false)) 4
              ([(5, 0, 0), (6, 0, 0), (7, 0, 0)].foldl Localizer.AddNewData
                (Localizer.create false []))).state := rfl
      rw [hrun] at h
      cases h)

/-- C12, counterexample: on a fresh localizer with an engine that raises on the
cloud marked 0, the observations marked 5, 0, 1 are enqueued and the worker is
allowed ten passes; it ends with the error in its second pass, and the
observation marked 1 is never processed. -/
theorem Run_stops_at_error :
    ∃ s1, Localizer.Run (sampleCollaborators (fun c => c == 0)) 10
        ([(5, 0, 0), (0, 0, 0), (1, 0, 0)].foldl Localizer.AddNewData
          (Localizer.create false [])) = .raised s1 ∧
      Localizer.processed s1.calls = [(5, 0, 0), (0, 0, 0)] ∧
      Localizer.processed s1.calls ≠ [(5, 0, 0), (0, 0, 0), (1, 0, 0)] ∧
      s1.new_data_buffer_ = [(1, 0, 0)] := by
  refine ⟨_, rfl, ?_, ?_, rfl⟩ <;> decide

/-- C13, as amended: when the engine has a map and the registration of the
observation at the front of the queue raises an error, the error is not
contained: it leaves `Main`, the loop ends in that pass however many passes it
is given, the last call of the pass is the registration, nothing is reported
to the map manager for the observation, and the observations that follow stay
in the queue, unprocessed. -/
theorem MainLoop_registration_error {S Icp MM : Type} (C : Collaborators Mx DP S Icp MM)
    (s : Localizer Mx DP S Icp MM) (cloud_ptr : DP) (T_world_robot T_robot_sensor : Mx)
    (rest : List (InputTuple Mx DP))
    (hstop : s.stop_ = false)
    (hq : s.new_data_buffer_ = (cloud_ptr, T_world_robot, T_robot_sensor) :: rest)
    (hmap : C.hasMap s.icp_sequence_ = true)
    (hraise : C.register (Localizer.engineAtRegistration C s)
      (C.compute (C.apply cloud_ptr) T_robot_sensor) T_world_robot = none) :
    ∀ fuel, ∃ s1, Localizer.MainLoop C (fuel + 1) s = .raised s1 ∧
      s1.new_data_buffer_ = rest ∧
      Localizer.processed s1.calls
        = Localizer.processed s.calls ++ [(cloud_ptr, T_world_robot, T_robot_sensor)] ∧
      s1.calls = s.calls ++
        [.front (cloud_ptr, T_world_robot, T_robot_sensor),
         .apply cloud_ptr,
         .compute (C.apply cloud_ptr) T_robot_sensor,
         .hasMap true] ++
        Localizer.refreshCalls C s ++
        [.register (C.compute (C.apply cloud_ptr) T_robot_sensor) T_world_robot] ∧
      s1.map_manager_ptr_ = Localizer.managerAtRegistration C s ∧
      Localizer.reported s1.calls = Localizer.reported s.calls := by
  intro fuel
  by_cases hneeds : (C.LocalMapNeedsUpdate s.map_manager_ptr_).2 = true
  · simp only [Localizer.engineAtRegistration, hneeds, if_true] at hraise
    simp only [Localizer.MainLoop, Localizer.MainIteration, Localizer.refreshCalls,
      Localizer.managerAtRegistration, hstop, hq, hmap, hneeds, hraise, Bool.false_eq_true,
      if_false, if_true, Bool.not_true]
    refine ⟨_, rfl, rfl, ?_, by simp, rfl, ?_⟩
    · simp [Localizer.processed_append, Localizer.processed]
    · simp [Localizer.reported_append, Localizer.reported]
  · have hno : (C.LocalMapNeedsUpdate s.map_manager_ptr_).2 = false := by simpa using hneeds
    simp only [Localizer.engineAtRegistration, hno, Bool.false_eq_true, if_false] at hraise
    simp only [Localizer.MainLoop, Localizer.MainIteration, Localizer.refreshCalls,
      Localizer.managerAtRegistration, hstop, hq, hmap, hno, hraise, Bool.false_eq_true,
      if_false, Bool.not_true]
    refine ⟨_, rfl, rfl, ?_, by simp, rfl, ?_⟩
    · simp [Localizer.processed_append, Localizer.processed]
    · simp [Localizer.reported_append, Localizer.reported]

/-- Witness of C13, as amended: the engine raises on the cloud marked 0, which
is in front of the cloud marked 1. -/
theorem MainLoop_registration_error_witness :
    ∃ s1, Localizer.MainLoop (sampleCollaborators (fun c => c == 0)) 5
        ([(0, 0, 0), (1, 0, 0)].foldl Localizer.AddNewData trackingLocalizer) = .raised s1 ∧
      s1.new_data_buffer_ = [(1, 0, 0)] := by
  obtain ⟨s1, h1, h2, -⟩ := MainLoop_registration_error (sampleCollaborators (fun c => c == 0))
    ([(0, 0, 0), (1, 0, 0)].foldl Localizer.AddNewData trackingLocalizer) 0 0 0 [(1, 0, 0)]
    rfl rfl rfl rfl 4
  exact ⟨s1, h1, h2⟩

/-- C13, counterexample: with an engine that raises on the cloud marked 0, a
worker started on the queue `[0, 1]` and allowed ten passes ends with the error
in its first pass; the observation marked 1 is never processed and stays in
the queue. -/
theorem Run_not_contained :
    ∃ s1, Localizer.Run (sampleCollaborators (fun c => c == 0)) 10
        ([(0, 0, 0), (1, 0, 0)].foldl Localizer.AddNewData trackingLocalizer) = .raised s1 ∧
      Localizer.processed s1.calls = [(0, 0, 0)] ∧
      s1.new_data_buffer_ = [(1, 0, 0)] ∧
      (1, 0, 0) ∉ Localizer.processed s1.calls := by
  refine ⟨_, rfl, ?_, rfl, ?_⟩ <;> decide

/-- C15: a pass that starts while the engine has no map filters the cloud and
transforms it by the robot-to-sensor pose, calls `AddFirstKeyframe(cloud, world
pose)` once, gets the map manager's local map and sets it as the engine's map
once, and goes to the next pass: no registration is run and
`AddKeyframeBasedOnOverlap` is not called for that observation. -/
theorem MainIteration_uninitialized {S Icp MM : Type} (C : Collaborators Mx DP S Icp MM)
    (s : Localizer Mx DP S Icp MM) (cloud_ptr : DP) (T_world_robot T_robot_sensor : Mx)
    (rest : List (InputTuple Mx DP))
    (hstop : s.stop_ = false)
    (hq : s.new_data_buffer_ = (cloud_ptr, T_world_robot, T_robot_sensor) :: rest)
    (hmap : C.hasMap s.icp_sequence_ = false) :
    ∃ s1, Localizer.MainIteration C s = .next s1 ∧
      s1.calls = s.calls ++
        [.front (cloud_ptr, T_world_robot, T_robot_sensor),
         .apply cloud_ptr,
         .compute (C.apply cloud_ptr) T_robot_sensor,
         .hasMap false,
         .AddFirstKeyframe (C.compute (C.apply cloud_ptr) T_robot_sensor) T_world_robot,
         .GetUpdatedLocalMap,
         .setMap (C.GetUpdatedLocalMap (C.AddFirstKeyframe s.map_manager_ptr_
            (C.compute (C.apply cloud_ptr) T_robot_sensor) T_world_robot)).2] ∧
      s1.icp_sequence_ = C.setMap s.icp_sequence_
        (C.GetUpdatedLocalMap (C.AddFirstKeyframe s.map_manager_ptr_
          (C.compute (C.apply cloud_ptr) T_robot_sensor) T_world_robot)).2 ∧
      s1.map_manager_ptr_ = (C.GetUpdatedLocalMap (C.AddFirstKeyframe s.map_manager_ptr_
          (C.compute (C.apply cloud_ptr) T_robot_sensor) T_world_robot)).1 ∧
      s1.new_data_buffer_ = rest := by
  simp only [Localizer.MainIteration, hstop, hq, hmap, Bool.false_eq_true, if_false,
    Bool.not_false, if_true]
  exact ⟨_, rfl, by simp, rfl, rfl, rfl⟩

/-- Witness of C15: the first observation of a fresh localizer seeds the first
keyframe and the engine's map. -/
theorem MainIteration_uninitialized_witness :
    ∃ s1, Localizer.MainIteration (sampleCollaborators (fun _ => false))
        (Localizer.AddNewData freshLocalizer (5, 0, 0)) = .next s1 ∧
      s1.calls = [.front (5, 0, 0), .apply 5, .compute 5 0, .hasMap false,
        .AddFirstKeyframe 5 0, .GetUpdatedLocalMap, .setMap 1] := by
  obtain ⟨s1, h1, h2, -⟩ := MainIteration_uninitialized (sampleCollaborators (fun _ => false))
    (Localizer.AddNewData freshLocalizer (5, 0, 0)) 5 0 0 [] rfl rfl rfl
  exact ⟨s1, h1, h2⟩

/-- C16, as amended: in every pass that starts while the engine has a map, the
engine's map is set again from `GetUpdatedLocalMap()` exactly when
`LocalMapNeedsUpdate()` answers true, and then one registration is run on the
cloud with the observation's world pose as initial guess. When it returns a
pose, the overlap is read from the engine after it and
`AddKeyframeBasedOnOverlap(overlap, cloud, corrected pose)` is called once on
the map manager with that overlap and that pose; when it raises an error, the
pass ends there and nothing is reported. -/
theorem MainIteration_tracking {S Icp MM : Type} (C : Collaborators Mx DP S Icp MM)
    (s : Localizer Mx DP S Icp MM) (cloud_ptr : DP) (T_world_robot T_robot_sensor : Mx)
    (rest : List (InputTuple Mx DP))
    (hstop : s.stop_ = false)
    (hq : s.new_data_buffer_ = (cloud_ptr, T_world_robot, T_robot_sensor) :: rest)
    (hmap : C.hasMap s.icp_sequence_ = true) :
    (∀ icp corrected_T_world_robot,
      C.register (Localizer.engineAtRegistration C s)
        (C.compute (C.apply cloud_ptr) T_robot_sensor) T_world_robot
        = some (icp, corrected_T_world_robot) →
      ∃ s1, Localizer.MainIteration C s = .next s1 ∧
        s1.calls = s.calls ++
          [.front (cloud_ptr, T_world_robot, T_robot_sensor),
           .apply cloud_ptr,
           .compute (C.apply cloud_ptr) T_robot_sensor,
           .hasMap true] ++
          Localizer.refreshCalls C s ++
          [.register (C.compute (C.apply cloud_ptr) T_robot_sensor) T_world_robot,
           .getOverlap (C.getOverlap icp),
           .AddKeyframeBasedOnOverlap (C.getOverlap icp)
              (C.compute (C.apply cloud_ptr) T_robot_sensor) corrected_T_world_robot] ∧
        s1.icp_sequence_ = icp ∧
        s1.map_manager_ptr_ = C.AddKeyframeBasedOnOverlap (Localizer.managerAtRegistration C s)
          (C.getOverlap icp) (C.compute (C.apply cloud_ptr) T_robot_sensor)
          corrected_T_world_robot ∧
        s1.new_data_buffer_ = rest) ∧
    (C.register (Localizer.engineAtRegistration C s)
        (C.compute (C.apply cloud_ptr) T_robot_sensor) T_world_robot = none →
      ∃ s1, Localizer.MainIteration C s = .raised s1 ∧
        s1.calls = s.calls ++
          [.front (cloud_ptr, T_world_robot, T_robot_sensor),
           .apply cloud_ptr,
           .compute (C.apply cloud_ptr) T_robot_sensor,
           .hasMap true] ++
          Localizer.refreshCalls C s ++
          [.register (C.compute (C.apply cloud_ptr) T_robot_sensor) T_world_robot] ∧
        s1.icp_sequence_ = Localizer.engineAtRegistration C s ∧
        s1.map_manager_ptr_ = Localizer.managerAtRegistration C s ∧
        s1.new_data_buffer_ = rest) := by
  by_cases hneeds : (C.LocalMapNeedsUpdate s.map_manager_ptr_).2 = true
  · constructor
    · intro icp corrected hreg
      simp only [Localizer.engineAtRegistration, hneeds, if_true] at hreg
      simp only [Localizer.MainIteration, Localizer.refreshCalls,
        Localizer.managerAtRegistration, hstop, hq, hmap, hneeds, hreg, Bool.false_eq_true,
        if_false, if_true, Bool.not_true]
      exact ⟨_, rfl, by simp, rfl, rfl, rfl⟩
    · intro hraise
      simp only [Localizer.engineAtRegistration, hneeds, if_true] at hraise
      simp only [Localizer.MainIteration, Localizer.refreshCalls, Localizer.engineAtRegistration,
        Localizer.managerAtRegistration, hstop, hq, hmap, hneeds, hraise, Bool.false_eq_true,
        if_false, if_true, Bool.not_true]
      exact ⟨_, rfl, by simp, rfl, rfl, rfl⟩
  · have hno : (C.LocalMapNeedsUpdate s.map_manager_ptr_).2 = false := by simpa using hneeds
    constructor
    · intro icp corrected hreg
      simp only [Localizer.engineAtRegistration, hno, Bool.false_eq_true, if_false] at hreg
      simp only [Localizer.MainIteration, Localizer.refreshCalls,
        Localizer.managerAtRegistration, hstop, hq, hmap, hno, hreg, Bool.false_eq_true,
        if_false, Bool.not_true]
      exact ⟨_, rfl, by simp, rfl, rfl, rfl⟩
    · intro hraise
      simp only [Localizer.engineAtRegistration, hno, Bool.false_eq_true, if_false] at hraise
      simp only [Localizer.MainIteration, Localizer.refreshCalls, Localizer.engineAtRegistration,
        Localizer.managerAtRegistration, hstop, hq, hmap, hno, hraise, Bool.false_eq_true,
        if_false, Bool.not_true]
      exact ⟨_, rfl, by simp, rfl, rfl, rfl⟩

/-- Witness of C16, as amended: a tracking localizer whose map needs no refresh
registers the observation marked 5 and reports it with overlap 1. -/
theorem MainIteration_tracking_witness :
    ∃ s1, Localizer.MainIteration (sampleCollaborators (fun _ => false))
        (Localizer.AddNewData trackingLocalizer (5, 3, 0)) = .next s1 ∧
      s1.calls = [.front (5, 3, 0), .apply 5, .compute 5 0, .hasMap true,
        .LocalMapNeedsUpdate false, .register 5 3, .getOverlap 1,
        .AddKeyframeBasedOnOverlap 1 5 3] ∧
      s1.map_manager_ptr_ = [9, 5] := by
  obtain ⟨s1, h1, h2, -, h4, -⟩ := (MainIteration_tracking (sampleCollaborators (fun _ => false))
    (Localizer.AddNewData trackingLocalizer (5, 3, 0)) 5 3 0 [] rfl rfl rfl).1 true 3 rfl
  exact ⟨s1, h1, h2, h4⟩

/-- C16, counterexample: a tracking localizer whose engine raises on the cloud
marked 0 runs the registration of that observation and calls
`AddKeyframeBasedOnOverlap` not at all: nothing is reported and the map
manager is left as it was. -/
theorem MainIteration_tracking_raises :
    ∃ s1, Localizer.MainIteration (sampleCollaborators (fun c => c == 0))
        (Localizer.AddNewData trackingLocalizer (0, 3, 0)) = .raised s1 ∧
      s1.calls = [.front (0, 3, 0), .apply 0, .compute 0 0, .hasMap true,
        .LocalMapNeedsUpdate false, .register 0 3] ∧
      Localizer.reported s1.calls = [] ∧
      s1.map_manager_ptr_ = [9] := by
  refine ⟨_, rfl, ?_, ?_, rfl⟩ <;> decide

/-- C14: every window reachable from `LocalMap(capacity)` or
`LocalMap(graph, composition)` through `UpdateFromGraph`, `UpdateFromDataBuffer`
and `UpdateToNewComposition`, with compositions and buffers that are within
their own capacity and have pairwise distinct vertices, has at most
`Capacity()` members and pairwise distinct vertices. -/
theorem Reachable_invariant (G : Geometry Mx DP) (w : LocalMap Mx DP) (h : Reachable G w) :
    w.data_.size ≤ w.Capacity ∧ (w.data_.elems.map (fun e => e.1)).Nodup := by
  induction h with
  | ofCapacity capacity =>
    simp [LocalMap.ofCapacity, circular_buffer.withCapacity, circular_buffer.size]
  | ofGraph g comp w hk hnd hw =>
    rw [LocalMap.Capacity, LocalMap.ofGraph_data G g comp w hw, DataBuffer.ofGraph_value g comp hk]
    refine ⟨by simpa [circular_buffer.size] using hk, ?_⟩
    simpa [Function.comp_def] using hnd
  | UpdateFromGraph w g w1 _ hw1 ih =>
    have hdata := LocalMap.BuildCloudFromData_data G _ w1 hw1
    rw [LocalMap.Capacity, hdata]
    refine ⟨by simpa [circular_buffer.size, LocalMap.Capacity] using ih.1, ?_⟩
    simpa [Function.comp_def] using ih.2
  | UpdateFromDataBuffer w data w1 _ hk hnd hw1 _ =>
    have hdata := LocalMap.BuildCloudFromData_data G _ w1 hw1
    rw [LocalMap.Capacity, hdata]
    exact ⟨hk, hnd⟩
  | UpdateToNewComposition w g comp w1 _ hk hnd hw1 _ =>
    have hdata := LocalMap.BuildCloudFromData_data G _ w1 hw1
    rw [LocalMap.Capacity, hdata]
    simp only [LocalMap.newComposition_data w.data_ g comp hk]
    refine ⟨by simpa [circular_buffer.size] using hk, ?_⟩
    simpa [Function.comp_def] using hnd

/-- Witness of C14: the window built from the composition `[7, 4]` of capacity
three and then refreshed from the later graph. -/
theorem Reachable_invariant_witness :
    ∃ w, Reachable exactGeometry w ∧
      w.data_.size ≤ w.Capacity ∧ (w.data_.elems.map (fun e => e.1)).Nodup := by
  obtain ⟨w0, hw0⟩ : ∃ w0, LocalMap.ofGraph exactGeometry sampleGraph ⟨3, [7, 4]⟩ = some w0 := by
    rw [LocalMap.ofGraph_eq exactGeometry sampleGraph ⟨3, [7, 4]⟩ (by decide)]
    exact LocalMap.BuildCloudFromData_isSome exactGeometry _ (by simp)
  have hd0 : w0.data_.elems ≠ [] := by
    rw [LocalMap.ofGraph_data exactGeometry sampleGraph _ w0 hw0,
      DataBuffer.ofGraph_value sampleGraph ⟨3, [7, 4]⟩ (by decide)]
    simp
  obtain ⟨w1, hw1⟩ : ∃ w1, LocalMap.UpdateFromGraph exactGeometry w0 laterGraph = some w1 :=
    LocalMap.BuildCloudFromData_isSome exactGeometry _ (by simpa using hd0)
  have hr : Reachable exactGeometry w1 :=
    Reachable.UpdateFromGraph w0 laterGraph w1
      (Reachable.ofGraph sampleGraph ⟨3, [7, 4]⟩ w0 (by decide) (by decide) hw0) hw1
  exact ⟨w1, hr, Reachable_invariant exactGeometry w1 hr⟩

/-- C17: right after `UpdateFromGraph(g)` on a non-empty window, and right after
`LocalMap(g, composition)` and `UpdateToNewComposition(g, composition)` with a
non-empty composition within its capacity, both `IsOutdated(g)` and
`IsReferenceKeyframeOutdated(g)` are false. -/
theorem not_outdated_after_update (G : Geometry Mx DP) (g : Graph Mx DP) :
    (∀ w : LocalMap Mx DP, w.data_.elems ≠ [] →
      ∃ w1, LocalMap.UpdateFromGraph G w g = some w1 ∧
        LocalMap.IsOutdated w1 g = false ∧
        LocalMap.IsReferenceKeyframeOutdated w1 g = some false) ∧
    (∀ comp : Composition, comp.size ≤ comp.capacity → comp.elems ≠ [] →
      (∃ w1, LocalMap.ofGraph G g comp = some w1 ∧
        LocalMap.IsOutdated w1 g = false ∧
        LocalMap.IsReferenceKeyframeOutdated w1 g = some false) ∧
      (∀ w : LocalMap Mx DP,
        ∃ w1, LocalMap.UpdateToNewComposition G w g comp = some w1 ∧
          LocalMap.IsOutdated w1 g = false ∧
          LocalMap.IsReferenceKeyframeOutdated w1 g = some false)) := by
  have key : ∀ (w0 w1 : LocalMap Mx DP), LocalMap.BuildCloudFromData G w0 = some w1 →
      (∀ e ∈ w0.data_.elems, e.2 = g e.1) → w0.data_.elems ≠ [] →
      LocalMap.IsOutdated w1 g = false ∧
        LocalMap.IsReferenceKeyframeOutdated w1 g = some false := by
    intro w0 w1 hb hcur hne
    have hdata := LocalMap.BuildCloudFromData_data G w0 w1 hb
    exact LocalMap.not_outdated_of_current w1 g (by rw [hdata]; exact hcur)
      (by rw [hdata]; exact hne)
  refine ⟨fun w hne => ?_, fun comp hk hne => ⟨?_, fun w => ?_⟩⟩
  · have hne1 : (w.data_.elems.map (fun e => (e.1, g e.1))) ≠ [] := by simpa using hne
    obtain ⟨w1, hw1⟩ := LocalMap.BuildCloudFromData_isSome G
      { w with data_ := { w.data_ with elems := w.data_.elems.map (fun e => (e.1, g e.1)) } }
      hne1
    refine ⟨w1, hw1, key _ w1 hw1 ?_ hne1⟩
    intro e he
    obtain ⟨e0, -, rfl⟩ := List.mem_map.mp he
    rfl
  · have hne1 : (comp.elems.map (fun v => (v, g v))) ≠ [] := by simpa using hne
    obtain ⟨w1, hw1⟩ := LocalMap.BuildCloudFromData_isSome G
      ⟨⟨comp.capacity, comp.elems.map (fun v => (v, g v))⟩, G.emptyCloud⟩ hne1
    refine ⟨w1, by rw [LocalMap.ofGraph_eq G g comp hk]; exact hw1, key _ w1 hw1 ?_ hne1⟩
    intro e he
    obtain ⟨v, -, rfl⟩ := List.mem_map.mp he
    rfl
  · have hne1 : (comp.elems.map (fun v => (v, g v))) ≠ [] := by simpa using hne
    obtain ⟨w1, hw1⟩ := LocalMap.BuildCloudFromData_isSome G
      { w with data_ := ⟨comp.capacity, comp.elems.map (fun v => (v, g v))⟩ } hne1
    refine ⟨w1, ?_, key _ w1 hw1 ?_ hne1⟩
    · rw [LocalMap.UpdateToNewComposition, LocalMap.newComposition_data w.data_ g comp hk]
      exact hw1
    · intro e he
      obtain ⟨v, -, rfl⟩ := List.mem_map.mp he
      rfl

/-- Witness of C17: the sample window, captured from the sample graph, is
outdated with respect to the later graph until it is refreshed from it. -/
theorem not_outdated_after_update_witness :
    LocalMap.IsOutdated sampleWindow laterGraph = true ∧
    ∃ w1, LocalMap.UpdateFromGraph exactGeometry sampleWindow laterGraph = some w1 ∧
      LocalMap.IsOutdated w1 laterGraph = false ∧
      LocalMap.IsReferenceKeyframeOutdated w1 laterGraph = some false :=
  ⟨by simp [LocalMap.IsOutdated, sampleWindow, sampleGraph, laterGraph],
    (not_outdated_after_update exactGeometry laterGraph).1 sampleWindow
      (by simp [sampleWindow])⟩

/-- C18: for a non-empty composition `c` within its capacity, the window built
by `LocalMap(g, c)`, and any window after `UpdateToNewComposition(g, c)`, answer
true to `HasSameComposition(c)`. -/
theorem HasSameComposition_after_load (G : Geometry Mx DP) (g : Graph Mx DP)
    (comp : Composition) (hk : comp.size ≤ comp.capacity) (hne : comp.elems ≠ []) :
    (∃ w1, LocalMap.ofGraph G g comp = some w1 ∧
      LocalMap.HasSameComposition w1 comp = some true) ∧
    (∀ w : LocalMap Mx DP,
      ∃ w1, LocalMap.UpdateToNewComposition G w g comp = some w1 ∧
        LocalMap.HasSameComposition w1 comp = some true) := by
  have hne1 : (comp.elems.map (fun v => (v, g v))) ≠ [] := by simpa using hne
  have key : ∀ (w0 w1 : LocalMap Mx DP), LocalMap.BuildCloudFromData G w0 = some w1 →
      w0.data_.elems = comp.elems.map (fun v => (v, g v)) →
      LocalMap.HasSameComposition w1 comp = some true := by
    intro w0 w1 hb hel
    apply LocalMap.HasSameComposition_of_vertices w1 comp _ hne
    rw [LocalMap.BuildCloudFromData_data G w0 w1 hb, hel]
    simp [Function.comp_def]
  constructor
  · obtain ⟨w1, hw1⟩ := LocalMap.BuildCloudFromData_isSome G
      ⟨⟨comp.capacity, comp.elems.map (fun v => (v, g v))⟩, G.emptyCloud⟩ hne1
    exact ⟨w1, by rw [LocalMap.ofGraph_eq G g comp hk]; exact hw1, key _ w1 hw1 rfl⟩
  · intro w
    obtain ⟨w1, hw1⟩ := LocalMap.BuildCloudFromData_isSome G
      { w with data_ := ⟨comp.capacity, comp.elems.map (fun v => (v, g v))⟩ } hne1
    refine ⟨w1, ?_, key _ w1 hw1 rfl⟩
    rw [LocalMap.UpdateToNewComposition, LocalMap.newComposition_data w.data_ g comp hk]
    exact hw1

/-- Witness of C18: the window built from the composition `[7, 4]` of capacity
three recognises that composition as its own. -/
theorem HasSameComposition_after_load_witness :
    ∃ w1, LocalMap.ofGraph exactGeometry sampleGraph ⟨3, [7, 4]⟩ = some w1 ∧
      LocalMap.HasSameComposition w1 ⟨3, [7, 4]⟩ = some true :=
  (HasSameComposition_after_load exactGeometry sampleGraph ⟨3, [7, 4]⟩
    (by decide) (by decide)).1

/-- C19: on a non-empty window after a rebuild, when the rigid transformation is
an action of the poses that distributes over concatenation and the reference
pose cancels against its inverse, `CloudInWorldFrame()` is the concatenation of
the clouds of all members, each transformed by its own optimized world pose:
the reference keyframe first, then the others in the order used by the
merge. -/
theorem CloudInWorldFrame_eq (G : Geometry Mx DP)
    (hdist : ∀ a b A, G.compute (G.concatenate a b) A
      = G.concatenate (G.compute a A) (G.compute b A))
    (hact : ∀ c A B, G.compute (G.compute c A) B = G.compute c (G.mul B A))
    (w : LocalMap Mx DP) (h : w.data_.elems ≠ [])
    (hcancel : ∀ B, G.mul (w.data_.elems.getLast h).2.optimized_T_world_kf
      (G.mul (G.inverse (w.data_.elems.getLast h).2.optimized_T_world_kf) B) = B) :
    ∃ w1 c, LocalMap.BuildCloudFromData G w = some w1 ∧
      LocalMap.CloudInWorldFrame G w1 = some c ∧
      mergeInWorldFrame G w.data_ = some c := by
  refine ⟨_, G.compute (w.data_.elems.dropLast.reverse.foldl
      (fun cloud e =>
        G.concatenate cloud
          (G.compute e.2.cloud_ptr
            (G.mul (G.inverse (w.data_.elems.getLast h).2.optimized_T_world_kf)
              e.2.optimized_T_world_kf)))
      (w.data_.elems.getLast h).2.cloud_ptr) (w.data_.elems.getLast h).2.optimized_T_world_kf,
    LocalMap.BuildCloudFromData_eq G w h, ?_, ?_⟩
  · simp only [LocalMap.CloudInWorldFrame, LocalMap.ReferenceKeyframe,
      circular_buffer.back_eq_getLast _ h, Option.map_some']
  · simp only [mergeInWorldFrame, LocalMap.reverse_eq_getLast_cons _ h, Option.some.injEq]
    exact (LocalMap.compute_foldl_merge G hdist hact _ hcancel _ _).symm

/-- Witness of C19 on the full window `[1, 2, 3]`: in the world frame the merged
cloud holds the points of keyframes 3, 2 and 1 at `(6, 0, 0)`, `(4, 0, 0)` and
`(2, 0, 0)`. -/
theorem CloudInWorldFrame_eq_witness :
    ∃ w1, LocalMap.BuildCloudFromData exactGeometry fullWindow = some w1 ∧
      LocalMap.CloudInWorldFrame exactGeometry w1
        = some [point 6 0 0, point 4 0 0, point 2 0 0] := by
  obtain ⟨w1, c, h1, h2, h3⟩ := CloudInWorldFrame_eq exactGeometry
    (fun a b A => by simp [exactGeometry])
    (fun c A B => by simp [exactGeometry, Matrix.mulVec_mulVec])
    fullWindow (by simp [fullWindow])
    (fun B => by
      simp only [fullWindow, sampleGraph, List.getLast_cons_cons, List.getLast_singleton,
        exactGeometry_inverse_translation, exactGeometry_mul]
      rw [← Matrix.mul_assoc, translation_mul]
      simp [translation_zero])
  refine ⟨w1, h1, ?_⟩
  rw [h2, ← h3]
  simp only [mergeInWorldFrame, fullWindow, sampleGraph, List.reverse_cons, List.reverse_nil,
    List.nil_append, List.cons_append, List.foldl_cons, List.foldl_nil, exactGeometry_compute,
    exactGeometry_concatenate, List.map_cons, List.map_nil, translation_mulVec,
    Option.some.injEq, List.cons.injEq, point_inj, and_true]
  norm_num

end claims

end pgslam
